import Mathlib

/-!
Verification development for the GRASP agent-loop core
(repository `Bluebear77/GraspTest`, directory `src/grasp`).

This file shallowly embeds the data model and the operations of the agent
loop (`core.py`), the model bridge (`model.py`), and the task adapters
(`tasks/__init__.py`, `tasks/cea.py`, `tasks/exploration/functions.py`,
`tasks/sparql_qa/__init__.py`, `tasks/feedback.py`) and proves properties
of them.

Embedding conventions:
* Python JSON values are modelled by the inductive `Json` below; numbers
  are modelled as integers (no claim under scrutiny depends on float
  values).
* Python exceptions are modelled with `Except`: a Python function that can
  raise is embedded as a function into `Except ε α`, where the error case
  carries the exception message.
* External collaborators that are out of scope of the repository core
  (the LLM backends behind `litellm`, the KG managers, the SPARQL
  endpoints, `json.loads`) are modelled as oracle parameters; one run of
  the agent loop corresponds to one choice of oracles.
* Wall-clock time (`elapsed`), logging, and randomly generated UUIDs are
  not modelled: they are invisible to every property proved here.
-/

/-- JSON values, the embedding of Python `dict`/`list`/`str`/numbers/
booleans/`None` as produced by `json.loads`.  Objects are association
lists; numbers are integers. -/
inductive Json where
  | null : Json
  | bool (b : Bool) : Json
  | num (n : Int) : Json
  | str (s : String) : Json
  | arr (xs : List Json) : Json
  | obj (kvs : List (String × Json)) : Json
deriving Repr

mutual
/-- Decidable equality of JSON values (hand-written because automatic
derivation does not handle the nested lists). -/
def Json.decEq : (a b : Json) → Decidable (a = b)
  | .null, .null => isTrue rfl
  | .bool x, .bool y =>
      match Bool.decEq x y with
      | isTrue h => isTrue (congrArg Json.bool h)
      | isFalse h => isFalse fun e => h (Json.bool.inj e)
  | .num x, .num y =>
      match Int.decEq x y with
      | isTrue h => isTrue (congrArg Json.num h)
      | isFalse h => isFalse fun e => h (Json.num.inj e)
  | .str x, .str y =>
      match String.decEq x y with
      | isTrue h => isTrue (congrArg Json.str h)
      | isFalse h => isFalse fun e => h (Json.str.inj e)
  | .arr xs, .arr ys =>
      match Json.decEqList xs ys with
      | isTrue h => isTrue (congrArg Json.arr h)
      | isFalse h => isFalse fun e => h (Json.arr.inj e)
  | .obj xs, .obj ys =>
      match Json.decEqObj xs ys with
      | isTrue h => isTrue (congrArg Json.obj h)
      | isFalse h => isFalse fun e => h (Json.obj.inj e)
  | .null, .bool _ => isFalse fun h => Json.noConfusion h
  | .null, .num _ => isFalse fun h => Json.noConfusion h
  | .null, .str _ => isFalse fun h => Json.noConfusion h
  | .null, .arr _ => isFalse fun h => Json.noConfusion h
  | .null, .obj _ => isFalse fun h => Json.noConfusion h
  | .bool _, .null => isFalse fun h => Json.noConfusion h
  | .bool _, .num _ => isFalse fun h => Json.noConfusion h
  | .bool _, .str _ => isFalse fun h => Json.noConfusion h
  | .bool _, .arr _ => isFalse fun h => Json.noConfusion h
  | .bool _, .obj _ => isFalse fun h => Json.noConfusion h
  | .num _, .null => isFalse fun h => Json.noConfusion h
  | .num _, .bool _ => isFalse fun h => Json.noConfusion h
  | .num _, .str _ => isFalse fun h => Json.noConfusion h
  | .num _, .arr _ => isFalse fun h => Json.noConfusion h
  | .num _, .obj _ => isFalse fun h => Json.noConfusion h
  | .str _, .null => isFalse fun h => Json.noConfusion h
  | .str _, .bool _ => isFalse fun h => Json.noConfusion h
  | .str _, .num _ => isFalse fun h => Json.noConfusion h
  | .str _, .arr _ => isFalse fun h => Json.noConfusion h
  | .str _, .obj _ => isFalse fun h => Json.noConfusion h
  | .arr _, .null => isFalse fun h => Json.noConfusion h
  | .arr _, .bool _ => isFalse fun h => Json.noConfusion h
  | .arr _, .num _ => isFalse fun h => Json.noConfusion h
  | .arr _, .str _ => isFalse fun h => Json.noConfusion h
  | .arr _, .obj _ => isFalse fun h => Json.noConfusion h
  | .obj _, .null => isFalse fun h => Json.noConfusion h
  | .obj _, .bool _ => isFalse fun h => Json.noConfusion h
  | .obj _, .num _ => isFalse fun h => Json.noConfusion h
  | .obj _, .str _ => isFalse fun h => Json.noConfusion h
  | .obj _, .arr _ => isFalse fun h => Json.noConfusion h

/-- Decidable equality of JSON arrays. -/
def Json.decEqList : (a b : List Json) → Decidable (a = b)
  | [], [] => isTrue rfl
  | [], _ :: _ => isFalse fun h => List.noConfusion h
  | _ :: _, [] => isFalse fun h => List.noConfusion h
  | x :: xs, y :: ys =>
      match Json.decEq x y, Json.decEqList xs ys with
      | isTrue h1, isTrue h2 => isTrue (by rw [h1, h2])
      | isFalse h1, _ => isFalse fun e => h1 (List.cons.inj e).1
      | _, isFalse h2 => isFalse fun e => h2 (List.cons.inj e).2

/-- Decidable equality of JSON object member lists. -/
def Json.decEqObj : (a b : List (String × Json)) → Decidable (a = b)
  | [], [] => isTrue rfl
  | [], _ :: _ => isFalse fun h => List.noConfusion h
  | _ :: _, [] => isFalse fun h => List.noConfusion h
  | (k, v) :: xs, (k', v') :: ys =>
      match String.decEq k k', Json.decEq v v', Json.decEqObj xs ys with
      | isTrue h0, isTrue h1, isTrue h2 => isTrue (by rw [h0, h1, h2])
      | isFalse h0, _, _ =>
          isFalse fun e => h0 (congrArg Prod.fst (List.cons.inj e).1)
      | _, isFalse h1, _ =>
          isFalse fun e => h1 (congrArg Prod.snd (List.cons.inj e).1)
      | _, _, isFalse h2 => isFalse fun e => h2 (List.cons.inj e).2
end

instance : DecidableEq Json := Json.decEq

/-- Escape a string for inclusion in a JSON serialization, as
`json.dumps` does for the characters that actually occur in the data
handled here (quote, backslash, newline, tab, carriage return). -/
def jsonEscape (s : String) : String :=
  String.join <| s.toList.map fun c =>
    if c = '"' then "\\\""
    else if c = '\\' then "\\\\"
    else if c = '\n' then "\\n"
    else if c = '\t' then "\\t"
    else if c = '\r' then "\\r"
    else String.singleton c

/-- Serialize a JSON string literal with surrounding quotes. -/
def jsonQuote (s : String) : String :=
  "\"" ++ jsonEscape s ++ "\""

/-- Join serialized items with the default `json.dumps` item separator. -/
def joinComma (xs : List String) : String :=
  String.intercalate ", " xs

/-- Sort an association list of already-serialized object members by raw
key, giving the `sort_keys=True` behaviour of `json.dumps`. -/
def sortByKey (kvs : List (String × String)) : List (String × String) :=
  List.insertionSort (fun a b => a.1 ≤ b.1) kvs

mutual
/-- Embeds Python `json.dumps(x, sort_keys=True)` with the default
separators: object keys are emitted in sorted order. -/
def Json.dumps : Json → String
  | .null => "null"
  | .bool b => cond b "true" "false"
  | .num n => toString n
  | .str s => jsonQuote s
  | .arr xs => "[" ++ joinComma (Json.dumpsList xs) ++ "]"
  | .obj kvs =>
      "\x7b" ++
        joinComma ((sortByKey (Json.dumpsObj kvs)).map fun kv =>
          jsonQuote kv.1 ++ ": " ++ kv.2) ++
      "\x7d"

/-- Serialize every element of a JSON array. -/
def Json.dumpsList : List Json → List String
  | [] => []
  | x :: xs => Json.dumps x :: Json.dumpsList xs

/-- Serialize every member of a JSON object, keeping the raw key for
sorting. -/
def Json.dumpsObj : List (String × Json) → List (String × String)
  | [] => []
  | (k, v) :: kvs => (k, Json.dumps v) :: Json.dumpsObj kvs
end

/-- Look up a key in a JSON object association list (first binding wins,
as in a Python `dict` built from distinct keys). -/
def jsonGet (kvs : List (String × Json)) (k : String) : Option Json :=
  match kvs with
  | [] => none
  | (k', v) :: rest => if k' = k then some v else jsonGet rest k

/-- Embeds the `ToolCall` pydantic model of `model.py`: a structured
function invocation emitted by the LLM, whose `result` is filled after
dispatch. -/
structure ToolCall where
  id : String
  name : String
  args : List (String × Json)
  result : Option String := none
deriving Repr, DecidableEq

/-- Embeds the `Reasoning` pydantic model of `model.py`. -/
structure Reasoning where
  id : String
  content : Option String := none
  summary : Option String := none
  encrypted_content : Option String := none
deriving Repr, DecidableEq

/-- Embeds the `Response` pydantic model of `model.py`: one assistant
turn. `usage` is kept opaque as a JSON value. -/
structure Response where
  id : String
  message : Option String
  reasoning : Option Reasoning := none
  tool_calls : List ToolCall
  usage : Option Json := none
deriving Repr, DecidableEq

/-- Embeds `Response.is_empty`: no text, no reasoning and no tool calls. -/
def Response.is_empty (r : Response) : Bool :=
  r.message.isNone && r.reasoning.isNone && r.tool_calls.isEmpty

/-- Embeds `Response.has_reasoning_content`. -/
def Response.has_reasoning_content (r : Response) : Bool :=
  match r.reasoning with
  | none => false
  | some rs => rs.content.isSome || rs.summary.isSome

/-- Embeds `Response.has_content`: text or reasoning content present. -/
def Response.has_content (r : Response) : Bool :=
  r.message.isSome || r.has_reasoning_content

/-- Embeds the reasoning part of `Response.get_content`: the reasoning
content, falling back to the summary. -/
def Response.content_reasoning (r : Response) : Option String :=
  if r.has_reasoning_content then
    match r.reasoning with
    | none => none
    | some rs => match rs.content with
      | some c => some c
      | none => rs.summary
  else none

/-- Serialize an optional string as JSON (`None` becomes `null`). -/
def optStrJson : Option String → Json
  | none => .null
  | some s => .str s

/-- Embeds `reasoning.model_dump(exclude={"id"})`: the reasoning fields
without the id, as a JSON object. -/
def Reasoning.dump_no_id (rs : Reasoning) : Json :=
  .obj [("content", optStrJson rs.content),
        ("summary", optStrJson rs.summary),
        ("encrypted_content", optStrJson rs.encrypted_content)]

/-- Lexicographic order on pairs of strings, the order `sorted` uses on
Python 2-tuples of strings. -/
def pairLe (a b : String × String) : Prop :=
  a.1 < b.1 ∨ (a.1 = b.1 ∧ a.2 ≤ b.2)

instance : DecidableRel pairLe := fun a b =>
  inferInstanceAs (Decidable (_ ∨ _))

/-- Embeds Python `sorted` on a list of string pairs. -/
def sortPairs (l : List (String × String)) : List (String × String) :=
  List.insertionSort pairLe l

/-- The `(tc.name, json.dumps(tc.args, sort_keys=True))` pair built for
each tool call by `Response.hash`. -/
def ToolCall.hashPair (tc : ToolCall) : String × String :=
  (tc.name, Json.dumps (.obj tc.args))

/-- Serialize a string pair the way `json.dumps` serializes a Python
tuple: as a two-element array. -/
def pairJson (p : String × String) : Json :=
  .arr [.str p.1, .str p.2]

/-- Embeds `Response.hash` of `model.py`: the stable content hash over
(message text, reasoning without its id, sorted (name, canonical-args)
pairs of the tool calls), serialized with sorted keys.  The response id,
the tool-call ids, the tool-call results and the usage metrics do not
enter the hash. -/
def Response.hash (r : Response) : String :=
  Json.dumps <| .obj
    [("msg", optStrJson r.message),
     ("reasoning", match r.reasoning with
       | some rs => rs.dump_no_id
       | none => .null),
     ("tool_calls", .arr ((sortPairs (r.tool_calls.map ToolCall.hashPair)).map pairJson))]

/-- Content of a conversation element: plain text for all roles except
`assistant`, whose content is a `Response`.  Embeds the
`content: str | Response` field of `Message` in `model.py`. -/
inductive Content where
  | text (s : String) : Content
  | resp (r : Response) : Content
deriving Repr, DecidableEq

/-- Embeds the `Message` pydantic model of `model.py`. -/
structure Message where
  role : String
  content : Content
deriving Repr, DecidableEq

/-- The tool calls of a message (empty for text messages). -/
def Message.toolCalls (m : Message) : List ToolCall :=
  match m.content with
  | .text _ => []
  | .resp r => r.tool_calls

/-- Every tool call appearing in the conversation carries a result.  This
is the precondition of the two wire serializers of `model.py`. -/
def resultsFilled (msgs : List Message) : Prop :=
  ∀ m ∈ msgs, ∀ tc ∈ m.toolCalls, tc.result ≠ none

instance : DecidablePred resultsFilled := fun msgs =>
  inferInstanceAs (Decidable (∀ _, _))

/-- Embeds the per-tool-call body of `completions_api_messages` in
`model.py`: the tool-call stub plus the separate `tool`-role result
message, with the `Expected tool call result` assertion modelled as an
error.  `json.dumps(tool_call.args)` is rendered with the canonical
serializer `Json.dumps`; no property proved here depends on the member
order of that string. -/
def completionsToolCalls : List ToolCall → Except String (List Json × List Json)
  | [] => .ok ([], [])
  | tc :: rest =>
      let callJson : Json := .obj
        [("id", .str tc.id),
         ("type", .str "function"),
         ("function", .obj
           [("name", .str tc.name),
            ("arguments", .str (Json.dumps (.obj tc.args)))])]
      match tc.result with
      | none => .error "Expected tool call result"
      | some res =>
          match completionsToolCalls rest with
          | .error e => .error e
          | .ok (cs, rs) =>
              .ok (callJson :: cs,
                   Json.obj [("tool_call_id", .str tc.id),
                             ("role", .str "tool"),
                             ("content", .str res)] :: rs)

/-- Embeds `completions_api_messages` of `model.py`: the Completions wire
form of a conversation.  Raises (returns `.error`) exactly when an
assistant tool call has no result. -/
def completions_api_messages : List Message → Except String (List Json)
  | [] => .ok []
  | m :: rest =>
      match m.content with
      | .text s =>
          let role := if m.role = "feedback" then "user" else m.role
          match completions_api_messages rest with
          | .error e => .error e
          | .ok tail => .ok (Json.obj [("role", .str role), ("content", .str s)] :: tail)
      | .resp assistant =>
          match completionsToolCalls assistant.tool_calls with
          | .error e => .error e
          | .ok (tool_calls, tool_call_results) =>
              let base := [("role", .str m.role), ("content", optStrJson assistant.message)]
              let base := match assistant.reasoning with
                | some rs => base ++ [("reasoning_content", optStrJson rs.content)]
                | none => base
              let base := if tool_calls.isEmpty then base
                else base ++ [("tool_calls", Json.arr tool_calls)]
              match completions_api_messages rest with
              | .error e => .error e
              | .ok tail => .ok (Json.obj base :: (tool_call_results ++ tail))

/-- Embeds the per-tool-call body of `responses_api_messages` in
`model.py`: the `custom_tool_call` item plus its
`custom_tool_call_output` item, with the `Expected tool call result`
assertion modelled as an error. -/
def responsesToolCalls : List ToolCall → Except String (List Json)
  | [] => .ok []
  | tc :: rest =>
      let callJson : Json := .obj
        [("type", .str "custom_tool_call"),
         ("call_id", .str tc.id),
         ("name", .str tc.name),
         ("input", .str (Json.dumps (.obj tc.args)))]
      match tc.result with
      | none => .error "Expected tool call result"
      | some res =>
          match responsesToolCalls rest with
          | .error e => .error e
          | .ok tail =>
              .ok (callJson ::
                   Json.obj [("type", .str "custom_tool_call_output"),
                             ("call_id", .str tc.id),
                             ("output", .str res)] :: tail)

/-- Embeds `responses_api_messages` of `model.py`: the Responses wire
form of a conversation, with separate reasoning / message / tool-call
items.  Raises exactly when an assistant tool call has no result. -/
def responses_api_messages : List Message → Except String (List Json)
  | [] => .ok []
  | m :: rest =>
      match m.content with
      | .text s =>
          let role := if m.role = "feedback" then "user" else m.role
          match responses_api_messages rest with
          | .error e => .error e
          | .ok tail =>
              .ok (Json.obj [("type", .str "message"), ("role", .str role),
                             ("content", .str s)] :: tail)
      | .resp assistant =>
          let reasoningItems : List Json := match assistant.reasoning with
            | some rs =>
                [Json.obj
                  [("id", .str rs.id),
                   ("type", .str "reasoning"),
                   ("content", match rs.content with
                     | some c => .arr [.obj [("text", .str c), ("type", .str "reasoning_text")]]
                     | none => .arr []),
                   ("summary", match rs.summary with
                     | some c => .arr [.obj [("text", .str c), ("type", .str "summary_text")]]
                     | none => .arr []),
                   ("encrypted_content", optStrJson rs.encrypted_content)]]
            | none => []
          let messageItems : List Json := match assistant.message with
            | some msg =>
                [Json.obj [("id", .str assistant.id), ("type", .str "message"),
                           ("role", .str m.role), ("content", .str msg)]]
            | none => []
          match responsesToolCalls assistant.tool_calls with
          | .error e => .error e
          | .ok toolItems =>
              match responses_api_messages rest with
              | .error e => .error e
              | .ok tail => .ok (reasoningItems ++ messageItems ++ toolItems ++ tail)

/-- The configuration fields of `GraspConfig` (`configs.py`) that the
agent loop of `core.py` reads.  The remaining fields (model parameters,
search parameters, ...) only flow into the external oracles and are
omitted. -/
structure GenConfig where
  max_steps : Nat := 100
  feedback : Bool := false
  max_feedbacks : Nat := 2
  know_before_use : Bool := false
  force_examples : Option String := none
deriving Repr, DecidableEq

/-- Embeds the task-specific config adjustment at the top of
`core.generate` (core.py lines 139-148): examples are disabled for tasks
other than sparql-qa, and know-before-use is forced on for CEA. -/
def generate_task_config (task : String) (config : GenConfig) : GenConfig :=
  let config := if task ≠ "sparql-qa" then { config with force_examples := none } else config
  if task = "cea" then { config with know_before_use := true } else config

/-- Embeds `task_done` of `tasks/__init__.py`: which tool names end the
loop for each task; an unknown task raises `ValueError`. -/
def task_done (task fn_name : String) : Except String Bool :=
  if task = "sparql-qa" then .ok (fn_name = "answer" || fn_name = "cancel")
  else if task = "general-qa" then .ok false
  else if task = "cea" then .ok (fn_name = "stop")
  else if task = "wikidata-query-logs" then .ok (fn_name = "answer" || fn_name = "cancel")
  else if task = "exploration" then .ok (fn_name = "stop")
  else .error ("Unknown task " ++ task)

/-- The five task names `task_done` accepts. -/
def validTask (task : String) : Prop :=
  task = "sparql-qa" ∨ task = "general-qa" ∨ task = "cea" ∨
    task = "wikidata-query-logs" ∨ task = "exploration"

instance : DecidablePred validTask := fun task =>
  inferInstanceAs (Decidable (_ ∨ _))

/-- The error entry of the terminal `output` event (`error` dict of
`core.generate`). -/
structure ErrorInfo where
  content : String
  reason : String
deriving Repr, DecidableEq

/-- The events yielded by `core.generate` inside the agent loop, plus the
terminal `output` event.  The pre-loop `input` and `system` events carry
only oracle-produced text and are not modelled; the `elapsed` and `known`
entries of the `output` event are likewise outside the modelled state.
`ω` is the type of task outputs (the dict returned by `task_output`). -/
inductive Event (ω : Type) where
  | model (reasoning : Option String) (content : Option String) : Event ω
  | tool (name : String) (args : List (String × Json)) (result : Option String) : Event ω
  | feedback (status : Json) (fb : Json) : Event ω
  | output (task : String) (out : Option ω) (error : Option ErrorInfo)
      (messages : List Message) : Event ω
deriving Repr, DecidableEq

/-- Result of one `call_model` invocation, as seen by `core.generate`:
a litellm `Timeout`, any other exception (with its text), or a parsed
`Response`. -/
inductive CallResult where
  | timeout : CallResult
  | failure (e : String) : CallResult
  | ok (r : Response) : CallResult
deriving Repr, DecidableEq

/-- The external world of one `generate` run.  `σ` is an abstract state
covering everything outside the loop itself (LLM backend, KG endpoints,
the known set, the mutable task state); each external call takes and
returns it.  `llm` is `call_model`; `call_function` is the
`functions.call_function` dispatcher (its `.error` case is a raised
exception, its `.ok` case the returned result string); `task_output` is
`tasks.task_output`; `feedback_call` is the `call_model` invocation
inside `generate_feedback`. -/
structure Env (σ ω : Type) where
  llm : σ → List Message → σ × CallResult
  call_function : σ → ToolCall → σ × Except String String
  task_output : σ → List Message → Option ω
  feedback_call : σ → List Message → ω → σ × CallResult

/-- Embeds the tail of `generate_feedback` (`tasks/feedback.py`
lines 123-130): the response must contain exactly one tool call named
`give_feedback`; otherwise the parse fails and `None` is returned. -/
def parse_feedback (r : Response) : Option (List (String × Json)) :=
  match r.tool_calls with
  | [tc] => if tc.name = "give_feedback" then some tc.args else none
  | _ => none

/-- Embeds `generate_feedback` (`tasks/feedback.py`) as called by
`core.generate`: building the prompt raises `ValueError` for every task
other than sparql-qa and cea (`system_instructions`), and `AssertionError`
when there is no user message (`feedback_instructions`); a `Timeout` of
the LLM call yields `None`; any other LLM failure propagates.  The third
component counts the feedback LLM calls actually made. -/
def generate_feedback_run (env : Env σ ω) (task : String) (w : σ)
    (msgs : List Message) (out : ω) :
    σ × Except String (Option (List (String × Json))) × Nat :=
  if task = "sparql-qa" ∨ task = "cea" then
    if (msgs.filter fun m => m.role = "user").isEmpty then
      (w, .error "At least one input is required for feedback", 0)
    else
      match env.feedback_call w msgs out with
      | (w', .timeout) => (w', .ok none, 1)
      | (w', .failure e) => (w', .error e, 1)
      | (w', .ok r) => (w', .ok (parse_feedback r), 1)
  else
    (w, .error ("System message not implemented for task: " ++ task), 0)

/-- Python `str()` on a JSON value, used by `format_feedback`; the
container cases are approximated by the canonical JSON serialization (no
property proved here depends on them). -/
def pystr : Json → String
  | .str s => s
  | .num n => toString n
  | .bool true => "True"
  | .bool false => "False"
  | .null => "None"
  | j => Json.dumps j

/-- Embeds `format_feedback` of `tasks/feedback.py`, applied to the
`status` and `feedback` entries of the feedback dict. -/
def format_feedback (status fbv : Json) : String :=
  "Feedback (status=" ++ pystr status ++ "):\n" ++ pystr fbv

/-- Embeds the dispatch of a single tool call in `core.generate`
(core.py lines 296-319): `call_function` is executed; an exception is
converted to the model-visible string
`Call to function <name> returned an error:\n<reason>`; the result is
stored in the tool call and a `tool` event is emitted. -/
def dispatch_tool_call (env : Env σ ω) (w : σ) (tc : ToolCall) :
    σ × ToolCall × Event ω :=
  let (w', res) := env.call_function w tc
  let result := match res with
    | .ok s => s
    | .error e => "Call to function " ++ tc.name ++ " returned an error:\n" ++ e
  (w', { tc with result := some result }, .tool tc.name tc.args (some result))

/-- Result of executing the tool calls of one assistant turn.  `calls`
is the tool-call list of the turn with the results filled in so far; on
`crash` (an exception escaping the generator, only possible through
`task_done` on an unknown task) the unprocessed suffix is unchanged. -/
inductive ToolsOut (σ ω : Type) where
  | ok (w : σ) (calls : List ToolCall) (events : List (Event ω)) (stop : Bool) : ToolsOut σ ω
  | crash (w : σ) (calls : List ToolCall) (events : List (Event ω)) (err : String) : ToolsOut σ ω

/-- Embeds the `for tool_call in response.tool_calls` loop of
`core.generate`: each call is dispatched in order, its result stored, a
`tool` event emitted, and `should_stop` set when `task_done` accepts the
tool name. -/
def runToolCalls (env : Env σ ω) (task : String) (w : σ) :
    List ToolCall → ToolsOut σ ω
  | [] => .ok w [] [] false
  | tc :: rest =>
      let (w', tc', ev) := dispatch_tool_call env w tc
      match task_done task tc.name with
      | .error e => .crash w' (tc' :: rest) [ev] e
      | .ok stopHere =>
          match runToolCalls env task w' rest with
          | .ok w'' calls evs stop => .ok w'' (tc' :: calls) (ev :: evs) (stopHere || stop)
          | .crash w'' calls evs e => .crash w'' (tc' :: calls) (ev :: evs) e

/-- Outcome of one iteration of the `while` loop of `core.generate`:
`exit` breaks out of the loop (with the `error` dict set or not),
`crash` is an exception escaping the generator, and `next` continues
with the updated conversation, loop-detection hash and retry counter.
The last component counts feedback LLM calls of the iteration. -/
inductive StepRes (σ ω : Type) where
  | exit (w : σ) (msgs : List Message) (events : List (Event ω))
      (error : Option ErrorInfo) (fb : Nat) : StepRes σ ω
  | crash (w : σ) (msgs : List Message) (events : List (Event ω))
      (err : String) (fb : Nat) : StepRes σ ω
  | next (w : σ) (msgs : List Message) (events : List (Event ω))
      (lastHash : Option String) (retries : Nat) (fb : Nat) : StepRes σ ω

/-- Embeds one iteration of the `while` loop of `core.generate`
(core.py lines 250-385), after the step-count condition has been checked:
call the model, classify failures, detect the empty response, append the
assistant message, detect a hash loop, emit the model-content event,
execute the tool calls, and run the feedback branch. -/
def loopStep (env : Env σ ω) (task : String) (cfg : GenConfig) (w : σ)
    (msgs : List Message) (last_resp_hash : Option String) (retries : Nat) :
    StepRes σ ω :=
  match env.llm w msgs with
  | (w₁, .timeout) =>
      .exit w₁ msgs [] (some ⟨"LLM API timed out", "timeout"⟩) 0
  | (w₁, .failure e) =>
      .exit w₁ msgs [] (some ⟨"Failed to generate response:\n" ++ e, "api"⟩) 0
  | (w₁, .ok response) =>
    if response.is_empty then
      .exit w₁ msgs [] (some ⟨"Empty response from LLM API", "empty"⟩) 0
    else
      let resp_hash := response.hash
      if last_resp_hash = some resp_hash then
        .exit w₁ (msgs ++ [⟨"assistant", .resp response⟩]) []
          (some ⟨"LLM appears to be stuck in a loop", "loop"⟩) 0
      else
        let contentEvents : List (Event ω) :=
          if response.has_content then
            [.model response.content_reasoning response.message]
          else []
        match runToolCalls env task w₁ response.tool_calls with
        | .crash w₂ calls evs e =>
            .crash w₂ (msgs ++ [⟨"assistant", .resp { response with tool_calls := calls }⟩])
              (contentEvents ++ evs) e 0
        | .ok w₂ calls evs stop =>
            let should_stop := response.tool_calls.isEmpty || stop
            let msgs' := msgs ++ [⟨"assistant", .resp { response with tool_calls := calls }⟩]
            let events := contentEvents ++ evs
            let can_give_feedback := cfg.feedback && decide (retries < cfg.max_feedbacks)
            if should_stop && !can_give_feedback then
              .exit w₂ msgs' events none 0
            else if !should_stop then
              .next w₂ msgs' events (some resp_hash) retries 0
            else
              -- here should_stop and can_give_feedback both hold; the
              -- source's unreachable `elif not can_give_feedback` branch
              -- is omitted
              match env.task_output w₂ msgs' with
              | none => .exit w₂ msgs' events none 0
              | some out =>
                  match generate_feedback_run env task w₂ msgs' out with
                  | (w₃, .error e, fb) =>
                      .exit w₃ msgs' events
                        (some ⟨"Failed to generate feedback:\n" ++ e, "feedback"⟩) fb
                  | (w₃, .ok none, fb) => .exit w₃ msgs' events none fb
                  | (w₃, .ok (some args), fb) =>
                      match jsonGet args "status", jsonGet args "feedback" with
                      | some st, some fbv =>
                          let msgs'' := msgs' ++ [⟨"feedback", .text (format_feedback st fbv)⟩]
                          let events' := events ++ [.feedback st fbv]
                          if st = Json.str "done" then
                            .exit w₃ msgs'' events' none fb
                          else
                            .next w₃ msgs'' events' none (retries + 1) fb
                      | _, _ =>
                          -- `format_feedback` raises `KeyError` before the
                          -- feedback message is appended
                          .crash w₃ msgs' events "KeyError in feedback dict" fb

/-- Aggregate result of running the `while` loop of `core.generate`:
the final world and conversation, the events in emission order, the
`error` dict, the number of `call_model` invocations, the number of
feedback LLM calls, the conversations passed to `call_model` (in call
order), and whether an exception escaped the generator. -/
structure LoopOut (σ ω : Type) where
  world : σ
  messages : List Message
  events : List (Event ω)
  error : Option ErrorInfo := none
  llm_calls : Nat := 0
  fb_calls : Nat := 0
  calls : List (List Message) := []
  crash : Option String := none

/-- Embeds the `while len(messages) - num_messages < config.max_steps`
loop of `core.generate`.  `num_messages` is the conversation length at
loop entry; `fuel` bounds the number of iterations and is immaterial
whenever `fuel ≥ cfg.max_steps` minus the messages already added, since
every iteration adds at least one message. -/
def runLoop (env : Env σ ω) (task : String) (cfg : GenConfig) (num_messages : Nat) :
    Nat → σ → List Message → Option String → Nat → LoopOut σ ω
  | 0, w, msgs, _, _ => ⟨w, msgs, [], none, 0, 0, [], none⟩
  | fuel + 1, w, msgs, last_resp_hash, retries =>
    if cfg.max_steps ≤ msgs.length - num_messages then
      ⟨w, msgs, [], none, 0, 0, [], none⟩
    else
      match loopStep env task cfg w msgs last_resp_hash retries with
      | .exit w' msgs' events error fb =>
          ⟨w', msgs', events, error, 1, fb, [msgs], none⟩
      | .crash w' msgs' events e fb =>
          ⟨w', msgs', events, none, 1, fb, [msgs], some e⟩
      | .next w' msgs' events lh rt fb =>
          let r := runLoop env task cfg num_messages fuel w' msgs' lh rt
          ⟨r.world, r.messages, events ++ r.events, r.error, r.llm_calls + 1,
            r.fb_calls + fb, msgs :: r.calls, r.crash⟩

/-- Embeds `core.generate` from loop entry to the terminal event: the
task-specific config adjustment is applied, the loop is run with the
step budget, and — unless an exception escaped — the terminal `output`
event is emitted with the final `task_output`, the `error` dict and the
full conversation. -/
def run_generate (env : Env σ ω) (task : String) (config : GenConfig) (w : σ)
    (msgs : List Message) : LoopOut σ ω :=
  let cfg := generate_task_config task config
  let r := runLoop env task cfg msgs.length cfg.max_steps w msgs none 0
  match r.crash with
  | some _ => r
  | none =>
      { r with events := r.events ++
          [.output task (env.task_output r.world r.messages) r.error r.messages] }

/-- Embeds the past-message handling of `core.generate` (core.py
lines 189-201): the conversation starts with the freshly built system
message; a non-empty `past` must start with a system message, whose
content replaces the new system content, and the remaining past turns
are adopted verbatim; finally the user input is appended. -/
def assemble_messages (system_instruction : String)
    (past_messages : Option (List Message)) (input : String) :
    Except String (List Message) :=
  match past_messages with
  | some (first :: past) =>
      if first.role = "system" then
        .ok ([⟨"system", first.content⟩] ++ past ++ [⟨"user", .text input⟩])
      else
        .error "First past message should be system"
  | _ => .ok [⟨"system", .text system_instruction⟩, ⟨"user", .text input⟩]

/-- Python slice index resolution: negative indices count from the end,
then the index is clamped to `[0, len]`. -/
def pySliceIdx (len : Nat) (i : Int) : Nat :=
  if i < 0 then (max 0 (i + len)).toNat else min i.toNat len

/-- Python list slicing `l[a:b]`. -/
def pySlice (l : List α) (a b : Int) : List α :=
  (l.take (pySliceIdx l.length b)).drop (pySliceIdx l.length a)

/-- Python `" ".join(s.strip().split())`, the cell normalizer of
`Table.clean` in `tasks/cea.py`. -/
def pyClean (s : String) : String :=
  String.intercalate " " ((s.split Char.isWhitespace).filter (· ≠ ""))

/-- Embeds the `Table` pydantic model of `tasks/cea.py`. -/
structure Table where
  header : List String
  data : List (List String)
  annotate_rows : Option (List Int) := none
  annotate_columns : Option (List Int) := none
deriving Repr, DecidableEq

/-- Embeds `Table.width`. -/
def Table.width (t : Table) : Nat := t.header.length

/-- Embeds `Table.height`. -/
def Table.height (t : Table) : Nat := t.data.length

/-- Embeds `Table.trim` of `tasks/cea.py`: no trimming when the context
covers the whole table or no row filter is given; otherwise the kept
window is `[max(0, min(rows) - context), min(height, max(rows) + context + 1))`
and the returned offset is its start.  `min`/`max` of an empty Python
list raise, modelled as the error case. -/
def Table.trim (t : Table) (context : Int) : Except String (Table × Int) :=
  if (t.height : Int) ≤ context then .ok (t, 0)
  else
    match t.annotate_rows with
    | none => .ok (t, 0)
    | some rows =>
        match rows.min?, rows.max? with
        | some mn, some mx =>
            let start := max 0 (mn - context)
            let stop := min (t.height : Int) (mx + context + 1)
            .ok ({ header := t.header,
                   data := pySlice t.data start stop,
                   annotate_rows := some (rows.map (· - start)),
                   annotate_columns := t.annotate_columns }, start)
        | _, _ => .error "min() arg is an empty sequence"

/-- Embeds `Table.clean` of `tasks/cea.py`. -/
def Table.clean (t : Table) : Table :=
  { header := t.header.map pyClean,
    data := t.data.map fun row => row.map pyClean,
    annotate_rows := t.annotate_rows,
    annotate_columns := t.annotate_columns }

/-- Embeds the `Annotation` pydantic model of `tasks/cea.py` (named
`Annot` here for technical reasons only). -/
structure Annot where
  identifier : String
  entity : String
  label : Option String := none
  synonyms : Option (List String) := none
  infos : Option (List String) := none
deriving Repr, DecidableEq

/-- Embeds the `AnnotationState` class of `tasks/cea.py`: the trimmed
and cleaned table, the row offset after trimming, the optional
allowed row and column sets, and the cell-to-entity map (an association
list keyed by `(row, column)`). -/
structure AnnotationState where
  table : Table
  offset : Int
  rows : Option (List Int)
  cols : Option (List Int)
  annotations : List ((Int × Int) × Annot) := []
deriving Repr, DecidableEq

/-- Lookup in the annotation map. -/
def annotGet (m : List ((Int × Int) × Annot)) (k : Int × Int) : Option Annot :=
  match m with
  | [] => none
  | (k', v) :: rest => if k' = k then some v else annotGet rest k

/-- Remove a key from the annotation map (Python `dict.pop`). -/
def annotErase : List ((Int × Int) × Annot) → (Int × Int) → List ((Int × Int) × Annot)
  | [], _ => []
  | (k', v) :: rest, k =>
      if k' = k then annotErase rest k else (k', v) :: annotErase rest k

/-- Embeds `AnnotationState.__init__` of `tasks/cea.py`: asserts a
non-empty header and rectangular data, trims when `context_rows` is
given, cleans the cells, and takes the allowed rows/columns from the
trimmed table. -/
def AnnotationState.init (table : Table) (context_rows : Option Int) :
    Except String AnnotationState :=
  if table.header.length = 0 then .error "Header must not be empty"
  else if ¬ table.data.all fun row => row.length = table.header.length then
    .error "All rows must have the same length as the header"
  else
    let trimmed : Except String (Table × Int) :=
      match context_rows with
      | none => .ok (table, 0)
      | some c => table.trim c
    match trimmed with
    | .error e => .error e
    | .ok (t, offset) =>
        let t := t.clean
        .ok { table := t, offset := offset,
              rows := t.annotate_rows, cols := t.annotate_columns,
              annotations := [] }

/-- Embeds `AnnotationState.annotate` of `tasks/cea.py`: bounds and
permitted-cells checks in source order, then `pop` of the current
annotation and insertion of the new one; all checks precede any change,
so a failing call leaves the map untouched.  Returns the previous
annotation of the cell together with the updated state. -/
def AnnotationState.annotate (s : AnnotationState) (row column : Int)
    (annot : Option Annot) :
    Except String (Option Annot × AnnotationState) :=
  if row < 0 ∨ (s.table.height : Int) ≤ row then
    .error ("Row " ++ toString row ++ " out of bounds")
  else if (match s.rows with | some rs => !(rs.contains row) | none => false) then
    .error ("Row " ++ toString row ++ " must not be annotated")
  else if column < 0 ∨ (s.table.width : Int) ≤ column then
    .error ("Column " ++ toString column ++ " out of bounds")
  else if (match s.cols with | some cs => !(cs.contains column) | none => false) then
    .error ("Column " ++ toString column ++ " must not be annotated")
  else
    let current := annotGet s.annotations (row, column)
    let m := annotErase s.annotations (row, column)
    let m' := match annot with
      | some a => m ++ [((row, column), a)]
      | none => m
    .ok (current, { s with annotations := m' })

/-- Embeds `annotate` of `tasks/cea.py` (lines 353-382), the handler of
the CEA `annotate` tool.  `find_manager` and `prepare_annotation` live in
files outside the embedded core (`grasp/functions.py`, the KG managers)
and are oracle parameters; `prepare` returns the annotation built for
the entity, whose `identifier` is checked against the known set when
know-before-use is active.  Errors are the raised
`FunctionCallException` texts. -/
def cea_annotate (find_manager : String → Except String Unit)
    (prepare : String → String → Except String Annot)
    (kg : String) (row column : Int) (entity : String)
    (state : AnnotationState) (known : List String)
    (know_before_use : Bool) :
    Except String (String × AnnotationState) :=
  match find_manager kg with
  | .error e => .error e
  | .ok _ =>
      match prepare kg entity with
      | .error e => .error e
      | .ok annot =>
          if know_before_use ∧ ¬ known.contains annot.identifier then
            .error ("The entity " ++ entity ++ " cannot be used for annotation " ++
              "without being known from previous function call results. " ++
              "This does not mean it is invalid, but you should verify " ++
              "that it indeed exists in the knowledge graphs first.")
          else
            match state.annotate row column (some annot) with
            | .error e => .error e
            | .ok (current, state') =>
                match current with
                | none =>
                    .ok ("Annotated cell (" ++ toString row ++ ", " ++ toString column ++
                      ") with entity " ++ entity, state')
                | some cur =>
                    .ok ("Updated annotation of cell (" ++ toString row ++ ", " ++
                      toString column ++ ") from " ++ cur.entity ++ " to " ++ entity, state')

/-- Embeds `format_enumerate` of `utils.py` at indent 0. -/
def format_enumerate (items : List String) : String :=
  String.intercalate "\n"
    (items.enum.map fun p => toString (p.1 + 1) ++ ". " ++ p.2)

/-- Embeds `check_note` of `tasks/exploration/functions.py`; note length
is the number of characters. -/
def check_note (note : String) (max_note_length : Nat) : Except String Unit :=
  if max_note_length < note.length then
    .error ("Note exceeds maximum length of " ++ toString max_note_length ++ " characters")
  else .ok ()

/-- Embeds `show_notes` of `tasks/exploration/functions.py`. -/
def show_notes (notes : List String) : String :=
  if notes.isEmpty then "No notes available" else format_enumerate notes

/-- Embeds `add_note` of `tasks/exploration/functions.py`: fails when
the list is full or the note too long, otherwise appends. -/
def add_note (notes : List String) (note : String)
    (max_notes max_note_length : Nat) : Except String (String × List String) :=
  if max_notes ≤ notes.length then
    .error ("Cannot add more than " ++ toString max_notes ++ " notes")
  else
    match check_note note max_note_length with
    | .error e => .error e
    | .ok _ =>
        let notes' := notes ++ [note]
        .ok ("Added note " ++ toString notes'.length ++ ": " ++ note, notes')

/-- Embeds `delete_note` of `tasks/exploration/functions.py`: 1-based
index with range check, then `pop`.  `num` is the tool argument after
Python `int()`. -/
def delete_note (notes : List String) (num : Int) :
    Except String (String × List String) :=
  if num < 1 ∨ (notes.length : Int) < num then .error "Note number out of range"
  else
    let idx := (num - 1).toNat
    let note := notes.getD idx ""
    .ok ("Deleted note " ++ toString (idx + 1) ++ ": " ++ note, notes.eraseIdx idx)

/-- Embeds `update_note` of `tasks/exploration/functions.py`: range
check first, then the length check, then in-place replacement. -/
def update_note (notes : List String) (num : Int) (note : String)
    (max_note_length : Nat) : Except String (String × List String) :=
  if num < 1 ∨ (notes.length : Int) < num then .error "Note number out of range"
  else
    match check_note note max_note_length with
    | .error e => .error e
    | .ok _ =>
        let idx := (num - 1).toNat
        .ok ("Updated note " ++ toString (idx + 1) ++ ": " ++ note, notes.set idx note)

/-- Apply one of the note tool handlers to the selected notes list,
extracting the arguments from the JSON dict as the source does
(a missing key is a `KeyError`, a wrongly typed value a `TypeError`). -/
def apply_note_fn (fn_name : String) (fn_args : List (String × Json))
    (lst : List String) (max_notes max_note_length : Nat) :
    Except String (String × List String) :=
  if fn_name = "add_note" then
    match jsonGet fn_args "note" with
    | some (Json.str note) => add_note lst note max_notes max_note_length
    | some _ => .error "TypeError: note must be a string"
    | none => .error "KeyError: note"
  else if fn_name = "delete_note" then
    match jsonGet fn_args "num" with
    | some (Json.num n) => delete_note lst n
    | some _ => .error "TypeError: num must be a number"
    | none => .error "KeyError: num"
  else if fn_name = "update_note" then
    match jsonGet fn_args "num", jsonGet fn_args "note" with
    | some (Json.num n), some (Json.str note) =>
        update_note lst n note max_note_length
    | none, _ => .error "KeyError: num"
    | _, none => .error "KeyError: note"
    | _, _ => .error "TypeError: invalid argument types"
  else if fn_name = "show_notes" then
    .ok (show_notes lst, lst)
  else
    .error ("Unknown function " ++ fn_name)

/-- Update the per-KG notes map at one key. -/
def kgNotesSet (kg_notes : List (String × List String)) (kg : String)
    (lst : List String) : List (String × List String) :=
  kg_notes.map fun kv => if kv.1 = kg then (kg, lst) else kv

/-- Lookup in the per-KG notes map. -/
def kgNotesGet (kg_notes : List (String × List String)) (kg : String) :
    Option (List String) :=
  match kg_notes with
  | [] => none
  | (k, v) :: rest => if k = kg then some v else kgNotesGet rest kg

/-- Embeds `call_function` of `tasks/exploration/functions.py`: `stop`
returns immediately; otherwise the `kg` argument selects the general
notes (for `null`) or the per-KG list (`KeyError` when the KG is not in
the map), the handler runs, and the updated lists are returned. -/
def notes_call_function (kg_notes : List (String × List String))
    (notes : List String) (fn_name : String) (fn_args : List (String × Json))
    (max_notes max_note_length : Nat) :
    Except String (String × List String × List (String × List String)) :=
  if fn_name = "stop" then .ok ("Stopped process", notes, kg_notes)
  else
    let kgv := match jsonGet fn_args "kg" with
      | some v => v
      | none => Json.null
    match kgv with
    | Json.null =>
        match apply_note_fn fn_name fn_args notes max_notes max_note_length with
        | .error e => .error e
        | .ok (res, notes') => .ok (res, notes', kg_notes)
    | Json.str kg =>
        match kgNotesGet kg_notes kg with
        | none => .error ("KeyError: " ++ kg)
        | some lst =>
            match apply_note_fn fn_name fn_args lst max_notes max_note_length with
            | .error e => .error e
            | .ok (res, lst') => .ok (res, notes, kgNotesSet kg_notes kg lst')
    | _ => .error "KeyError: kg must be a string or null"

/-- Embeds the `ExplorationState` pydantic model of
`tasks/exploration/__init__.py`. -/
structure ExplorationState where
  notes : List String := []
  kg_notes : List (String × List String) := []
deriving Repr, DecidableEq

/-- Task input as accepted by `task_setup` of `tasks/__init__.py`:
a string question or SPARQL query, a JSON table for CEA, or an
`ExplorationState`. -/
inductive TaskInput where
  | text (s : String) : TaskInput
  | json (j : Json) : TaskInput
  | exploration (st : ExplorationState) : TaskInput
deriving Repr, DecidableEq

/-- The per-task state owned by the agent loop (`TaskState` of the
spec): nothing for the QA tasks, an `AnnotationState` for CEA, an
`ExplorationState` for exploration. -/
inductive TaskState where
  | none : TaskState
  | cea (st : AnnotationState) : TaskState
  | exploration (st : ExplorationState) : TaskState
deriving Repr, DecidableEq

/-- Embeds `task_setup` of `tasks/__init__.py` (lines 128-158).  The
wikidata-query-logs branch executes the query against the endpoint and
is therefore an oracle (`wdql_setup`); the exploration branch's
instruction text involves only formatting and is an oracle as well
(`explo_input`).  The CEA branch of the source (line 140) calls
`cea_input_and_state(input)` with a single argument, while
`tasks/cea.py` line 423 declares `def input_and_state(input, config)`
with no default for `config`: the interpreter raises `TypeError` before
any CEA state is built, for every input and configuration. -/
def task_setup (wdql_setup : String → Except String (String × TaskState))
    (explo_input : ExplorationState → String)
    (task : String) (input : TaskInput) :
    Except String (String × TaskState) :=
  if task = "sparql-qa" ∨ task = "general-qa" then
    match input with
    | .text s => .ok (s, .none)
    | _ => .error ("Input for task " ++ task ++ " must be a string (question)")
  else if task = "cea" then
    .error "TypeError: input_and_state() missing 1 required positional argument: config"
  else if task = "wikidata-query-logs" then
    match input with
    | .text s => wdql_setup s
    | _ => .error "Input for wikidata-query-logs must be a string (SPARQL query)"
  else if task = "exploration" then
    match input with
    | .exploration st => .ok (explo_input st, .exploration st)
    | _ => .error "Input for exploration must already be an ExplorationState"
  else
    .error ("Unknown task " ++ task)

/-- Lowercase a character list (for the `re.IGNORECASE` matching of the
fenced-block patterns in `tasks/sparql_qa/__init__.py`). -/
def lowerList (l : List Char) : List Char := l.map Char.toLower

/-- Index of the first occurrence of `pat` in `hay`, or `none`. -/
def findSub (hay pat : List Char) : Option Nat :=
  if pat.isPrefixOf hay then some 0
  else
    match hay with
    | [] => none
    | _ :: rest => (findSub rest pat).map (· + 1)

/-- Embeds one `re.search(open (.*?) close, msg, IGNORECASE | DOTALL)`
with surrounding whitespace stripped from the group: the delimiters are
matched case-insensitively, the group is the (non-greedy) text between
the first opening delimiter and the first closing delimiter after it,
and the result is trimmed (the callers apply `.strip()` or wrap the
group in `\s*`). -/
def extract_after (msg openTag closeTag : String) : Option String :=
  match findSub (lowerList msg.toList) (lowerList openTag.toList) with
  | none => none
  | some i =>
      let rest := msg.toList.drop (i + openTag.toList.length)
      match findSub (lowerList rest) (lowerList closeTag.toList) with
      | none => none
      | some j => some (String.mk (rest.take j)).trim

/-- Embeds `get_raw_tool_call_from_message` of
`tasks/sparql_qa/__init__.py`: the `<tool_call>...</tool_call>` span, or
else the first fenced ```json block. -/
def get_raw_tool_call_from_message (message : String) : Option String :=
  match extract_after message "<tool_call>" "</tool_call>" with
  | some inner => some inner
  | none => extract_after message "```json" "```"

/-- String check of a pydantic `str` field. -/
def asString : Json → Option String
  | .str s => some s
  | _ => none

/-- Embeds validation against the `AnswerModel` pydantic schema of
`tasks/sparql_qa/__init__.py`: an object with string fields `kg`,
`sparql`, `answer` (extra members are ignored). -/
def validate_answer_args (j : Json) : Option (String × String × String) :=
  match j with
  | .obj kvs =>
      match (jsonGet kvs "kg").bind asString,
            (jsonGet kvs "sparql").bind asString,
            (jsonGet kvs "answer").bind asString with
      | some kg, some sparql, some ans => some (kg, sparql, ans)
      | _, _, _ => none
  | _ => none

/-- Embeds validation against the `AnswerCallModel` pydantic schema:
an object `name` (any string) plus `arguments` validating as
`AnswerModel`. -/
def validate_answer_call (j : Json) : Option (String × String × String × String) :=
  match j with
  | .obj kvs =>
      match (jsonGet kvs "name").bind asString, jsonGet kvs "arguments" with
      | some name, some argsj =>
          (validate_answer_args argsj).map fun a => (name, a)
      | _, _ => none
  | _ => none

/-- Embeds `get_answer_from_message` of `tasks/sparql_qa/__init__.py`.
`parse` is the JSON parser behind `model_validate_json` (an oracle for
the standard library).  The source's second attempt validates the block
as a bare `AnswerModel`, but its `try/finally` ends with `return None`
in the `finally` clause, which overrides the `return ToolCall(...)` of
the `try` body and swallows any `ValidationError`: that attempt always
yields `None`, which is embedded literally.  The fresh `uuid4` id is
modelled as `""`. -/
def get_answer_from_message (parse : String → Option Json) :
    Option String → Option ToolCall
  | none => none
  | some message =>
      match get_raw_tool_call_from_message message with
      | none => none
      | some tool_call =>
          match (parse tool_call).bind validate_answer_call with
          | some (name, kg, sparql, ans) =>
              some { id := "", name := name,
                     args := [("kg", .str kg), ("sparql", .str sparql),
                              ("answer", .str ans)] }
          | none =>
              -- `try: ... return ToolCall(...) finally: return None`
              none

/-- Embeds validation of the `best_attempt` field of `CancelModel`
(`BestAttemptModel | str | None`, defaulting to `None`), returning its
`model_dump`. -/
def validate_cancel_best_attempt (j : Json) : Option Json :=
  match j with
  | .obj kvs =>
      match (jsonGet kvs "sparql").bind asString, (jsonGet kvs "kg").bind asString with
      | some sp, some kg => some (.obj [("sparql", .str sp), ("kg", .str kg)])
      | _, _ => none
  | .str s => some (.str s)
  | .null => some .null
  | _ => none

/-- Embeds validation against the `CancelModel` pydantic schema:
a string `explanation` plus an optional `best_attempt`. -/
def validate_cancel_args (j : Json) : Option (String × Json) :=
  match j with
  | .obj kvs =>
      match (jsonGet kvs "explanation").bind asString with
      | none => none
      | some e =>
          match jsonGet kvs "best_attempt" with
          | none => some (e, .null)
          | some b => (validate_cancel_best_attempt b).map fun ba => (e, ba)
  | _ => none

/-- Embeds validation against the `CancelCallModel` pydantic schema. -/
def validate_cancel_call (j : Json) : Option (String × String × Json) :=
  match j with
  | .obj kvs =>
      match (jsonGet kvs "name").bind asString, jsonGet kvs "arguments" with
      | some name, some argsj =>
          (validate_cancel_args argsj).map fun a => (name, a)
      | _, _ => none
  | _ => none

/-- Embeds `get_cancel_from_message` of `tasks/sparql_qa/__init__.py`;
its second attempt has the same `try/finally: return None` as
`get_answer_from_message` and always yields `None`. -/
def get_cancel_from_message (parse : String → Option Json) :
    Option String → Option ToolCall
  | none => none
  | some message =>
      match get_raw_tool_call_from_message message with
      | none => none
      | some tool_call =>
          match (parse tool_call).bind validate_cancel_call with
          | some (name, expl, ba) =>
              some { id := "", name := name,
                     args := [("explanation", .str expl), ("best_attempt", ba)] }
          | none =>
              -- `try: ... return ToolCall(...) finally: return None`
              none

/-- Embeds `get_sparql_from_message` of `tasks/sparql_qa/__init__.py`:
a fenced ```sparql block is promoted to an `answer` call with `kg` null
and the whole message as the answer text. -/
def get_sparql_from_message : Option String → Option ToolCall
  | none => none
  | some message =>
      match extract_after message "```sparql" "```" with
      | some q =>
          some { id := "", name := "answer",
                 args := [("kg", .null), ("sparql", .str q),
                          ("answer", .str message)] }
      | none => none

/-- Python `x or default` for an optional string (both `None` and the
empty string are falsy). -/
def pyOrStr (s : Option String) (d : String) : String :=
  match s with
  | none => d
  | some s => if s = "" then d else s

/-- Python dict merge `{**args, k: v}`: an existing key is overridden in
place, a new key appended. -/
def dictSet (kvs : List (String × Json)) (k : String) (v : Json) :
    List (String × Json) :=
  if kvs.any fun kv => kv.1 = k then
    kvs.map fun kv => if kv.1 = k then (k, v) else kv
  else kvs ++ [(k, v)]

/-- The scanning state of the message loop of `get_answer_or_cancel`. -/
structure ScanState where
  last_message : Option String := none
  last_answer : Option ToolCall := none
  last_cancel : Option ToolCall := none
  last_execute : Option ToolCall := none
deriving Repr, DecidableEq

/-- Embeds the inner `for tool_call in message.content.tool_calls` loop
of `get_answer_or_cancel`: `answer` and `cancel` reset each other,
`execute` is remembered. -/
def scan_tool_calls (st : ScanState) : List ToolCall → ScanState
  | [] => st
  | tc :: rest =>
      let st :=
        if tc.name = "answer" then
          { st with last_answer := some tc, last_cancel := none }
        else if tc.name = "cancel" then
          { st with last_cancel := some tc, last_answer := none }
        else if tc.name = "execute" then
          { st with last_execute := some tc }
        else st
      scan_tool_calls st rest

/-- Embeds the outer message loop of `get_answer_or_cancel` over
`messages[2:]`: an intermediate `feedback` message (any message equal in
value to the last one excepted) resets the scan; assistant messages
update the last message text and are scanned for tool calls. -/
def scan_messages (lastMsg : Message) (st : ScanState) :
    List Message → ScanState
  | [] => st
  | m :: rest =>
      let st := if m.role = "feedback" ∧ m ≠ lastMsg then {} else st
      let st := match m.content with
        | .text _ => st
        | .resp r => scan_tool_calls { st with last_message := r.message } r.tool_calls
      scan_messages lastMsg st rest

/-- Embeds `get_answer_or_cancel` of `tasks/sparql_qa/__init__.py`
(lines 303-360): scan the turns, then fall back — in order — to parsing
an answer call, a cancel call, a fenced SPARQL block from the final
assistant message, and finally to promoting the last `execute` call.
The two leading `assert`s are the error cases. -/
def get_answer_or_cancel (parse : String → Option Json)
    (messages : List Message) :
    Except String (Option ToolCall × Option ToolCall) :=
  match messages with
  | m0 :: m1 :: rest =>
    if m0.role = "system" then
      if m1.role = "user" then
        let lastMsg := (m0 :: m1 :: rest).getLast (by simp)
        let st := scan_messages lastMsg {} rest
        match st.last_answer, st.last_cancel with
        | none, none =>
            match get_answer_from_message parse st.last_message with
            | some a => .ok (some a, none)
            | none =>
                match get_cancel_from_message parse st.last_message with
                | some c => .ok (none, some c)
                | none =>
                    match get_sparql_from_message st.last_message with
                    | some a => .ok (some a, none)
                    | none =>
                        match st.last_execute with
                        | some ex =>
                            let ansText := pyOrStr st.last_message "No answer provided"
                            let tc : ToolCall :=
                              { id := "dummy", name := "answer",
                                args := dictSet ex.args "answer" (.str ansText) }
                            .ok (some tc, none)
                        | none => .ok (none, none)
        | la, lc => .ok (la, lc)
      else .error "Second message should be user"
    else .error "First message should be system"
  | _ => .error "First message should be system"

/-- Embeds `output` of `tasks/general_qa.py`: the message text of the
last assistant response, or `None`; the returned dict duplicates that
text in the `output` and `formatted` fields, which the embedding elides
to the text itself. -/
def general_qa_output (messages : List Message) : Option String :=
  match messages.reverse.find? (fun m =>
      match m.content with | .resp _ => true | _ => false) with
  | some m =>
      match m.content with
      | .resp r => r.message
      | _ => none
  | none => none

/-- The feedback LLM call count of one loop iteration. -/
def StepRes.fb : StepRes σ ω → Nat
  | .exit _ _ _ _ fb => fb
  | .crash _ _ _ _ fb => fb
  | .next _ _ _ _ _ fb => fb

/-- The notes bounds of the spec: at most `max_notes` entries, each at
most `max_note_length` characters. -/
def boundedNotes (max_notes max_note_length : Nat) (lst : List String) : Prop :=
  lst.length ≤ max_notes ∧ ∀ n ∈ lst, n.length ≤ max_note_length

/-- The notes bounds for the general list and every per-KG list. -/
def boundedState (max_notes max_note_length : Nat) (notes : List String)
    (kg_notes : List (String × List String)) : Prop :=
  boundedNotes max_notes max_note_length notes ∧
    ∀ p ∈ kg_notes, boundedNotes max_notes max_note_length p.2

instance : Decidable (boundedNotes mn ml lst) :=
  inferInstanceAs (Decidable (_ ∧ _))

instance : Decidable (boundedState mn ml notes kg_notes) :=
  inferInstanceAs (Decidable (_ ∧ _))

/-- A concrete non-empty assistant response (loop-detection witness). -/
def c1Resp : Response := { id := "r1", message := some "hello", tool_calls := [] }

/-- A concrete initial conversation. -/
def c1Msgs : List Message := [⟨"system", .text "sys"⟩, ⟨"user", .text "question"⟩]

/-- A concrete environment whose model always returns `c1Resp`. -/
def c1Env : Env Unit String :=
  { llm := fun _ _ => ((), .ok c1Resp),
    call_function := fun w _ => (w, .ok "result"),
    task_output := fun _ _ => none,
    feedback_call := fun w _ _ => (w, .timeout) }

/-- Config for the loop-detection witness. -/
def c1Cfg : GenConfig := { max_steps := 5 }

/-- A concrete response with one non-terminal tool call (step-limit
counterexample). -/
def c2Resp : Response :=
  { id := "r1", message := some "searching",
    tool_calls := [{ id := "t1", name := "search_entities", args := [] }] }

/-- Environment whose model always calls `search_entities`. -/
def c2Env : Env Unit String :=
  { llm := fun _ _ => ((), .ok c2Resp),
    call_function := fun w _ => (w, .ok "found entities"),
    task_output := fun _ _ => none,
    feedback_call := fun w _ _ => (w, .timeout) }

/-- Config with `max_steps = 1`. -/
def c2Cfg : GenConfig := { max_steps := 1 }

/-- Initial conversation of the step-limit counterexample. -/
def c2Msgs : List Message := [⟨"system", .text "sys"⟩, ⟨"user", .text "question"⟩]

/-- The completed tool call of the single step of the run. -/
def c2Done : ToolCall :=
  { id := "t1", name := "search_entities", args := [], result := some "found entities" }

/-- The conversation after the single step of the run. -/
def c2FinalMsgs : List Message :=
  c2Msgs ++ [⟨"assistant", .resp { c2Resp with tool_calls := [c2Done] }⟩]

/-- The step-limit counterexample run: `max_steps = 1`, one
`search_entities` turn, budget exhausted. -/
def c2Run : LoopOut Unit String := run_generate c2Env "sparql-qa" c2Cfg () c2Msgs

/-- Environment whose model call always times out (used to witness the
error-reason characterization). -/
def cTimeoutEnv : Env Unit String :=
  { llm := fun _ _ => ((), .timeout),
    call_function := fun w _ => (w, .ok ""),
    task_output := fun _ _ => none,
    feedback_call := fun w _ _ => (w, .timeout) }

/-- A natural-stop response with message text and no tool calls
(feedback counterexample). -/
def c5Resp : Response := { id := "r1", message := some "The answer is 42.", tool_calls := [] }

/-- Environment for the general-qa feedback counterexample: the task
output is the real `general_qa_output`. -/
def c5Env : Env Unit String :=
  { llm := fun _ _ => ((), .ok c5Resp),
    call_function := fun w _ => (w, .ok ""),
    task_output := fun _ msgs => general_qa_output msgs,
    feedback_call := fun w _ _ => (w, .timeout) }

/-- Config with the feedback sub-loop enabled. -/
def c5Cfg : GenConfig := { max_steps := 10, feedback := true, max_feedbacks := 2 }

/-- The general-qa run with feedback enabled: the model answers in plain
text, the output is non-null, and the feedback prompt builder raises. -/
def c5Run : LoopOut Unit String :=
  run_generate c5Env "general-qa" c5Cfg ()
    [⟨"system", .text "sys"⟩, ⟨"user", .text "question"⟩]

/-- Environment whose dispatcher always raises (tool-failure witness). -/
def c6Env : Env Unit String :=
  { llm := fun _ _ => ((), .ok c1Resp),
    call_function := fun w _ => (w, .error "boom"),
    task_output := fun _ _ => none,
    feedback_call := fun w _ _ => (w, .timeout) }

/-- A concrete tool call for the tool-failure witness. -/
def c6Tc : ToolCall := { id := "t", name := "execute", args := [] }

/-- The bare `answer`-argument object of the fallback-parse
counterexample, as parsed from the fenced block. -/
def c4Json : Json :=
  .obj [("kg", .str "w"), ("sparql", .str "q"), ("answer", .str "a")]

/-- A final assistant message carrying the bare argument object inside
`<tool_call>` tags. -/
def c4Msg : String :=
  "<tool_call>\x7b\"kg\": \"w\", \"sparql\": \"q\", \"answer\": \"a\"\x7d</tool_call>"

/-- The JSON parser oracle for the counterexample: parsing the extracted
block yields the bare argument object. -/
def c4Parse : String → Option Json := fun _ => some c4Json

/-- A conversation whose final assistant message carries the fenced
block and whose turns contain no `answer`/`cancel`/`execute` call. -/
def c4Msgs : List Message :=
  [⟨"system", .text "s"⟩, ⟨"user", .text "q"⟩,
   ⟨"assistant", .resp { id := "r", message := some c4Msg, tool_calls := [] }⟩]

/-- A past assistant tool call whose result was never filled. -/
def c9BadCall : ToolCall := { id := "t1", name := "execute", args := [] }

/-- Client-supplied past messages containing the unfilled tool call. -/
def c9Past : List Message :=
  [⟨"system", .text "old system"⟩,
   ⟨"assistant", .resp { id := "r", message := some "text", tool_calls := [c9BadCall] }⟩]

/-- The conversation built from the past messages by
`assemble_messages`. -/
def c9Conv : List Message :=
  [⟨"system", .text "old system"⟩,
   ⟨"assistant", .resp { id := "r", message := some "text", tool_calls := [c9BadCall] }⟩,
   ⟨"user", .text "question"⟩]

/-- First response of the hash-invariance witness: two tool calls, a
reasoning block, usage metrics. -/
def c10Resp1 : Response :=
  { id := "id-a", message := some "msg",
    reasoning := some { id := "ra", content := some "because" },
    tool_calls := [{ id := "x1", name := "b", args := [("y", .num 2)] },
                   { id := "x2", name := "a", args := [("x", .num 1)] }],
    usage := some (.obj [("tokens", .num 10)]) }

/-- Second response: different ids and usage, tool calls reordered. -/
def c10Resp2 : Response :=
  { id := "id-b", message := some "msg",
    reasoning := some { id := "rb", content := some "because" },
    tool_calls := [{ id := "z1", name := "a", args := [("x", .num 1)] },
                   { id := "z2", name := "b", args := [("y", .num 2)] }],
    usage := none }

/-- A 2-by-2 annotation state with `annotate_rows = [0]` (CEA witness). -/
def c7State : AnnotationState :=
  { table := { header := ["City", "Country"],
               data := [["Paris", "France"], ["Rome", "Italy"]] },
    offset := 0, rows := some [0], cols := none, annotations := [] }

/-- Manager lookup oracle of the CEA witness. -/
def c7FindManager : String → Except String Unit := fun _ => .ok ()

/-- `prepare_annotation` oracle of the CEA witness. -/
def c7Prepare : String → String → Except String Annot :=
  fun _ e => .ok { identifier := "Q1", entity := e }

theorem pairLe_total : ∀ a b : String × String, pairLe a b ∨ pairLe b a := by
  intro a b
  rcases lt_trichotomy a.1 b.1 with h | h | h
  · exact Or.inl (Or.inl h)
  · rcases le_total a.2 b.2 with h2 | h2
    · exact Or.inl (Or.inr ⟨h, h2⟩)
    · exact Or.inr (Or.inr ⟨h.symm, h2⟩)
  · exact Or.inr (Or.inl h)

theorem pairLe_trans : ∀ a b c : String × String, pairLe a b → pairLe b c → pairLe a c := by
  intro a b c hab hbc
  rcases hab with h1 | ⟨e1, l1⟩ <;> rcases hbc with h2 | ⟨e2, l2⟩
  · exact Or.inl (h1.trans h2)
  · exact Or.inl (e2 ▸ h1)
  · exact Or.inl (e1 ▸ h2)
  · exact Or.inr ⟨e1.trans e2, l1.trans l2⟩

theorem pairLe_antisymm : ∀ a b : String × String, pairLe a b → pairLe b a → a = b := by
  intro a b hab hba
  rcases hab with h1 | ⟨e1, l1⟩ <;> rcases hba with h2 | ⟨e2, l2⟩
  · exact absurd h2 (lt_asymm h1)
  · exact absurd h1 (e2 ▸ lt_irrefl _)
  · exact absurd h2 (e1 ▸ lt_irrefl _)
  · exact Prod.ext e1 (le_antisymm l1 l2)

instance : IsTotal (String × String) pairLe := ⟨pairLe_total⟩
instance : IsTrans (String × String) pairLe := ⟨pairLe_trans⟩
instance : IsAntisymm (String × String) pairLe := ⟨pairLe_antisymm⟩

theorem sortPairs_perm_eq {l₁ l₂ : List (String × String)} (h : l₁.Perm l₂) :
    sortPairs l₁ = sortPairs l₂ :=
  List.eq_of_perm_of_sorted
    ((List.perm_insertionSort pairLe l₁).trans
      (h.trans (List.perm_insertionSort pairLe l₂).symm))
    (List.sorted_insertionSort pairLe l₁)
    (List.sorted_insertionSort pairLe l₂)

/-- C10: `Response.hash` is invariant under reordering of the tool-call
list and under changes to the response id, the tool-call ids, the
reasoning id and the usage metrics: two responses equal in message text
and reasoning content/summary/encrypted-content whose
(tool-call name, arguments) pairs agree as multisets have identical
hashes, so loop detection treats them as the same turn. -/
theorem c10_hash_invariance (r₁ r₂ : Response)
    (hmsg : r₁.message = r₂.message)
    (hreas : r₁.reasoning.map (fun rs => (rs.content, rs.summary, rs.encrypted_content)) =
             r₂.reasoning.map (fun rs => (rs.content, rs.summary, rs.encrypted_content)))
    (hperm : (r₁.tool_calls.map fun tc => (tc.name, tc.args)).Perm
             (r₂.tool_calls.map fun tc => (tc.name, tc.args))) :
    r₁.hash = r₂.hash := by
  unfold Response.hash
  have hpairs : sortPairs (r₁.tool_calls.map ToolCall.hashPair) =
      sortPairs (r₂.tool_calls.map ToolCall.hashPair) := by
    apply sortPairs_perm_eq
    have h1 : ∀ r : Response, r.tool_calls.map ToolCall.hashPair =
        (r.tool_calls.map fun tc => (tc.name, tc.args)).map
          (fun p => (p.1, Json.dumps (.obj p.2))) := by
      intro r
      simp [List.map_map, ToolCall.hashPair, Function.comp]
    rw [h1, h1]
    exact hperm.map _
  have hdump : (match r₁.reasoning with
      | some rs => rs.dump_no_id
      | none => Json.null) =
      (match r₂.reasoning with
      | some rs => rs.dump_no_id
      | none => Json.null) := by
    cases h₁ : r₁.reasoning with
    | none => cases h₂ : r₂.reasoning with
      | none => rfl
      | some rs₂ => rw [h₁, h₂] at hreas; simp at hreas
    | some rs₁ => cases h₂ : r₂.reasoning with
      | none => rw [h₁, h₂] at hreas; simp at hreas
      | some rs₂ =>
          rw [h₁, h₂] at hreas
          simp only [Option.map_some'] at hreas
          injection hreas with hreas
          unfold Reasoning.dump_no_id
          simp_all
  rw [hmsg, hpairs, hdump]

/-- Witness for C10: two concrete responses with different ids, usage
metrics and tool-call order but the same content hash. -/
theorem c10_hash_invariance_witness :
    c10Resp1.message = c10Resp2.message ∧
    c10Resp1.hash = c10Resp2.hash :=
  ⟨rfl, c10_hash_invariance c10Resp1 c10Resp2 rfl rfl
    (List.Perm.swap ("a", [("x", Json.num 1)]) ("b", [("y", Json.num 2)]) [])⟩

theorem add_note_bounds {lst : List String} {note : String} {mn ml : Nat}
    {res : String} {lst' : List String}
    (hb : boundedNotes mn ml lst)
    (h : add_note lst note mn ml = .ok (res, lst')) :
    boundedNotes mn ml lst' := by
  unfold add_note at h
  split at h
  · exact absurd h (by simp)
  · rename_i hlen
    unfold check_note at h
    split at h
    · exact absurd h (by simp)
    · rename_i hnote
      have hnl : ¬ ml < note.length := by
        intro hlt
        rw [if_pos hlt] at hnote
        exact Except.noConfusion hnote
      injection h with h
      injection h with _ h2
      subst h2
      constructor
      · simp only [List.length_append, List.length_singleton]
        omega
      · intro n hn
        rcases List.mem_append.mp hn with hn | hn
        · exact hb.2 n hn
        · simp only [List.mem_singleton] at hn
          subst hn
          omega

theorem update_note_bounds {lst : List String} {num : Int} {note : String}
    {ml mn : Nat} {res : String} {lst' : List String}
    (hb : boundedNotes mn ml lst)
    (h : update_note lst num note ml = .ok (res, lst')) :
    boundedNotes mn ml lst' := by
  unfold update_note at h
  split at h
  · exact absurd h (by simp)
  · unfold check_note at h
    split at h
    · exact absurd h (by simp)
    · rename_i hnote
      have hnl : ¬ ml < note.length := by
        intro hlt
        rw [if_pos hlt] at hnote
        exact Except.noConfusion hnote
      injection h with h
      injection h with _ h2
      subst h2
      constructor
      · simpa using hb.1
      · intro n hn
        rcases List.mem_or_eq_of_mem_set hn with hn | hn
        · exact hb.2 n hn
        · subst hn; omega

theorem delete_note_bounds {lst : List String} {num : Int} {mn ml : Nat}
    {res : String} {lst' : List String}
    (hb : boundedNotes mn ml lst)
    (h : delete_note lst num = .ok (res, lst')) :
    boundedNotes mn ml lst' := by
  unfold delete_note at h
  split at h
  · exact absurd h (by simp)
  · injection h with h
    injection h with _ h2
    subst h2
    constructor
    · exact le_trans (List.eraseIdx_sublist _ _).length_le hb.1
    · intro n hn
      exact hb.2 n ((List.eraseIdx_sublist _ _).mem hn)

theorem apply_note_fn_bounds {fn_name : String} {fn_args : List (String × Json)}
    {lst : List String} {mn ml : Nat} {res : String} {lst' : List String}
    (hb : boundedNotes mn ml lst)
    (h : apply_note_fn fn_name fn_args lst mn ml = .ok (res, lst')) :
    boundedNotes mn ml lst' := by
  unfold apply_note_fn at h
  split at h
  · -- add_note
    split at h
    · exact add_note_bounds hb h
    · exact absurd h (by simp)
    · exact absurd h (by simp)
  · split at h
    · -- delete_note
      split at h
      · exact delete_note_bounds hb h
      · exact absurd h (by simp)
      · exact absurd h (by simp)
    · split at h
      · -- update_note
        split at h
        · exact update_note_bounds hb h
        · exact absurd h (by simp)
        · exact absurd h (by simp)
        · exact absurd h (by simp)
      · split at h
        · -- show_notes
          injection h with h
          injection h with _ h2
          subst h2
          exact hb
        · exact absurd h (by simp)

theorem kgNotesSet_mem {kg_notes : List (String × List String)} {kg : String}
    {lst' : List String} {p : String × List String}
    (hp : p ∈ kgNotesSet kg_notes kg lst') :
    p.2 = lst' ∨ p ∈ kg_notes := by
  unfold kgNotesSet at hp
  rcases List.mem_map.mp hp with ⟨q, hq, hpq⟩
  by_cases hk : q.1 = kg
  · rw [if_pos hk] at hpq; left; rw [← hpq]
  · rw [if_neg hk] at hpq; right; rw [← hpq]; exact hq

theorem kgNotesGet_mem {kg_notes : List (String × List String)} {kg : String}
    {lst : List String} (h : kgNotesGet kg_notes kg = some lst) :
    (kg, lst) ∈ kg_notes := by
  induction kg_notes with
  | nil => simp [kgNotesGet] at h
  | cons q rest ih =>
      obtain ⟨k, v⟩ := q
      unfold kgNotesGet at h
      split at h
      · rename_i hk
        injection h with h
        subst hk
        subst h
        exact List.mem_cons_self _ _
      · exact List.mem_cons_of_mem _ (ih h)

theorem notes_call_function_bounds {kg_notes : List (String × List String)}
    {notes : List String} {fn_name : String} {fn_args : List (String × Json)}
    {mn ml : Nat} {res : String} {notes' : List String}
    {kg_notes' : List (String × List String)}
    (hb : boundedState mn ml notes kg_notes)
    (h : notes_call_function kg_notes notes fn_name fn_args mn ml =
      .ok (res, notes', kg_notes')) :
    boundedState mn ml notes' kg_notes' := by
  unfold notes_call_function at h
  by_cases hstop : fn_name = "stop"
  · rw [if_pos hstop] at h
    injection h with h
    injection h with _ h2
    injection h2 with h2 h3
    subst h2; subst h3
    exact hb
  · rw [if_neg hstop] at h
    have hnull : ∀ (he : apply_note_fn fn_name fn_args notes mn ml =
          .ok (res, notes')) (hk : kg_notes' = kg_notes),
        boundedState mn ml notes' kg_notes' := by
      intro he hk
      subst hk
      exact ⟨apply_note_fn_bounds hb.1 he, hb.2⟩
    rcases hkg : jsonGet fn_args "kg" with _ | v
    · simp only [hkg] at h
      rcases happ : apply_note_fn fn_name fn_args notes mn ml with e | ⟨r, lst'⟩
      · rw [happ] at h
        exact absurd h (by simp)
      · rw [happ] at h
        injection h with h
        injection h with h1 h2
        injection h2 with h2 h3
        subst h1; subst h2
        exact hnull happ h3.symm
    · simp only [hkg] at h
      cases v with
      | null =>
          dsimp only at h
          rcases happ : apply_note_fn fn_name fn_args notes mn ml with e | ⟨r, lst'⟩
          · rw [happ] at h
            exact absurd h (by simp)
          · rw [happ] at h
            injection h with h
            injection h with h1 h2
            injection h2 with h2 h3
            subst h1; subst h2
            exact hnull happ h3.symm
      | str kg =>
          dsimp only at h
          rcases hget : kgNotesGet kg_notes kg with _ | lst
          · rw [hget] at h
            exact absurd h (by simp)
          · rw [hget] at h
            dsimp only at h
            rcases happ : apply_note_fn fn_name fn_args lst mn ml with e | ⟨r, lst'⟩
            · rw [happ] at h
              exact absurd h (by simp)
            · rw [happ] at h
              injection h with h
              injection h with h1 h2
              injection h2 with h2 h3
              subst h1; subst h2; subst h3
              refine ⟨hb.1, ?_⟩
              intro p hp
              rcases kgNotesSet_mem hp with hp | hp
              · rw [hp]
                exact apply_note_fn_bounds (hb.2 _ (kgNotesGet_mem hget)) happ
              · exact hb.2 p hp
      | bool b => exact absurd h (by simp)
      | num n => exact absurd h (by simp)
      | arr xs => exact absurd h (by simp)
      | obj kvs => exact absurd h (by simp)

/-- C8: the Exploration note handlers preserve the notes bounds: any
`add_note` / `update_note` / `delete_note` / `show_notes` call that
succeeds keeps every list within `max_notes` entries of at most
`max_note_length` characters; `add_note` on a full list fails with
`Cannot add more than {max_notes} notes`, an over-long note fails
`add_note`/`update_note` with the maximum-length message, and
`delete_note`/`update_note` fail with `Note number out of range` unless
`1 ≤ num ≤ len(notes)` (1-based). -/
theorem c8_notes_bounds :
    (∀ (kg_notes : List (String × List String)) (notes : List String)
        (fn_name : String) (fn_args : List (String × Json)) (mn ml : Nat)
        (res : String) (notes' : List String)
        (kg_notes' : List (String × List String)),
      boundedState mn ml notes kg_notes →
      notes_call_function kg_notes notes fn_name fn_args mn ml =
        .ok (res, notes', kg_notes') →
      boundedState mn ml notes' kg_notes')
    ∧ (∀ (notes : List String) (note : String) (mn ml : Nat),
        mn ≤ notes.length →
        add_note notes note mn ml =
          .error ("Cannot add more than " ++ toString mn ++ " notes"))
    ∧ (∀ (notes : List String) (note : String) (mn ml : Nat),
        notes.length < mn → ml < note.length →
        add_note notes note mn ml =
          .error ("Note exceeds maximum length of " ++ toString ml ++ " characters"))
    ∧ (∀ (notes : List String) (num : Int) (note : String) (ml : Nat),
        1 ≤ num → num ≤ (notes.length : Int) → ml < note.length →
        update_note notes num note ml =
          .error ("Note exceeds maximum length of " ++ toString ml ++ " characters"))
    ∧ (∀ (notes : List String) (num : Int),
        ¬ (1 ≤ num ∧ num ≤ (notes.length : Int)) →
        delete_note notes num = .error "Note number out of range")
    ∧ (∀ (notes : List String) (num : Int) (note : String) (ml : Nat),
        ¬ (1 ≤ num ∧ num ≤ (notes.length : Int)) →
        update_note notes num note ml = .error "Note number out of range")
    ∧ (∀ (notes : List String) (num : Int),
        1 ≤ num → num ≤ (notes.length : Int) →
        (delete_note notes num).isOk = true) := by
  refine ⟨?_, ?_, ?_, ?_, ?_, ?_, ?_⟩
  · intro kg_notes notes fn_name fn_args mn ml res notes' kg_notes' hb h
    exact notes_call_function_bounds hb h
  · intro notes note mn ml hfull
    unfold add_note
    rw [if_pos hfull]
  · intro notes note mn ml hlen hnote
    unfold add_note check_note
    rw [if_neg (by omega), if_pos hnote]
  · intro notes num note ml h1 h2 hnote
    unfold update_note check_note
    rw [if_neg (by omega), if_pos hnote]
  · intro notes num hrange
    unfold delete_note
    rw [if_pos (by omega)]
  · intro notes num note ml hrange
    unfold update_note
    rw [if_pos (by omega)]
  · intro notes num h1 h2
    unfold delete_note
    rw [if_neg (by omega)]
    rfl

/-- Witness for C8: a concrete bounded state stays bounded after a
successful `add_note` call through the dispatcher. -/
theorem c8_notes_bounds_witness :
    boundedState 2 5 ["ab"] [("wikidata", ["x"])] ∧
    notes_call_function [("wikidata", ["x"])] ["ab"] "add_note"
      [("kg", .null), ("note", .str "cd")] 2 5 =
      .ok ("Added note 2: cd", ["ab", "cd"], [("wikidata", ["x"])]) ∧
    boundedState 2 5 ["ab", "cd"] [("wikidata", ["x"])] :=
  ⟨by decide, rfl,
    c8_notes_bounds.1 [("wikidata", ["x"])] ["ab"] "add_note"
      [("kg", .null), ("note", .str "cd")] 2 5 "Added note 2: cd"
      ["ab", "cd"] [("wikidata", ["x"])] (by decide) rfl⟩

theorem annotGet_append (l₁ l₂ : List ((Int × Int) × Annot)) (k : Int × Int) :
    annotGet (l₁ ++ l₂) k =
      (match annotGet l₁ k with
       | some v => some v
       | none => annotGet l₂ k) := by
  induction l₁ with
  | nil => simp [annotGet]
  | cons kv rest ih =>
      obtain ⟨k', v⟩ := kv
      by_cases hk : k' = k
      · simp [annotGet, hk]
      · simp [annotGet, hk, ih]

theorem annotGet_erase_self (m : List ((Int × Int) × Annot)) (k : Int × Int) :
    annotGet (annotErase m k) k = none := by
  induction m with
  | nil => simp [annotErase, annotGet]
  | cons kv rest ih =>
      obtain ⟨k', v⟩ := kv
      by_cases hk : k' = k
      · simpa [annotErase, hk] using ih
      · simpa [annotErase, annotGet, hk] using ih

theorem annotGet_erase_ne (m : List ((Int × Int) × Annot)) {k c : Int × Int}
    (h : c ≠ k) : annotGet (annotErase m k) c = annotGet m c := by
  induction m with
  | nil => simp [annotErase]
  | cons kv rest ih =>
      obtain ⟨k', v⟩ := kv
      by_cases hk : k' = k
      · subst hk
        have hkc : ¬ k' = c := fun e => h (e.symm)
        simpa [annotErase, annotGet, hkc] using ih
      · by_cases hc : k' = c
        · subst hc
          simp [annotErase, annotGet, h]
        · simpa [annotErase, annotGet, hk, hc] using ih

theorem AnnotationState.annotate_ok {s : AnnotationState} {row column : Int}
    {a : Option Annot} {cur : Option Annot} {s' : AnnotationState}
    (h : s.annotate row column a = .ok (cur, s')) :
    (0 ≤ row ∧ row < (s.table.height : Int)) ∧
    (0 ≤ column ∧ column < (s.table.width : Int)) ∧
    (∀ rs, s.rows = some rs → row ∈ rs) ∧
    (∀ cs, s.cols = some cs → column ∈ cs) ∧
    cur = annotGet s.annotations (row, column) ∧
    s'.table = s.table ∧ s'.offset = s.offset ∧ s'.rows = s.rows ∧ s'.cols = s.cols ∧
    (∀ a₀, a = some a₀ →
      s'.annotations = annotErase s.annotations (row, column) ++ [((row, column), a₀)]) ∧
    (a = none → s'.annotations = annotErase s.annotations (row, column)) := by
  unfold AnnotationState.annotate at h
  split at h
  · exact absurd h (by simp)
  · rename_i hrow
    split at h
    · exact absurd h (by simp)
    · rename_i hrows
      split at h
      · exact absurd h (by simp)
      · rename_i hcol
        split at h
        · exact absurd h (by simp)
        · rename_i hcols
          injection h with h
          injection h with h1 h2
          subst h1
          subst h2
          push_neg at hrow hcol
          refine ⟨⟨hrow.1, hrow.2⟩, ⟨hcol.1, hcol.2⟩, ?_, ?_, rfl, rfl, rfl, rfl, rfl, ?_, ?_⟩
          · intro rs hrs
            rw [hrs] at hrows
            simpa using hrows
          · intro cs hcs
            rw [hcs] at hcols
            simpa using hcols
          · intro a₀ ha
            subst ha
            rfl
          · intro ha
            subst ha
            rfl

theorem cea_annotate_ok_inv {fm : String → Except String Unit}
    {prep : String → String → Except String Annot}
    {kg : String} {row column : Int} {entity : String} {st : AnnotationState}
    {known : List String} {kbu : Bool} {msg : String} {st' : AnnotationState}
    (h : cea_annotate fm prep kg row column entity st known kbu = .ok (msg, st')) :
    (0 ≤ row ∧ row < (st.table.height : Int)) ∧
    (0 ≤ column ∧ column < (st.table.width : Int)) ∧
    (∀ rs, st.rows = some rs → row ∈ rs) ∧
    (∀ cs, st.cols = some cs → column ∈ cs) ∧
    (kbu = true → ∃ a, prep kg entity = .ok a ∧ known.contains a.identifier = true) ∧
    (∃ a, prep kg entity = .ok a ∧
      annotGet st'.annotations (row, column) = some a ∧
      ∀ cell, cell ≠ (row, column) →
        annotGet st'.annotations cell = annotGet st.annotations cell) := by
  unfold cea_annotate at h
  rcases hfm : fm kg with e | u
  · rw [hfm] at h
    exact absurd h (by simp)
  · rw [hfm] at h
    dsimp only at h
    rcases hprep : prep kg entity with e | a
    · rw [hprep] at h
      exact absurd h (by simp)
    · rw [hprep] at h
      dsimp only at h
      split at h
      · exact absurd h (by simp)
      · rename_i hknow
        rcases hann : st.annotate row column (some a) with e | p
        · rw [hann] at h
          exact absurd h (by simp)
        · obtain ⟨cur, st''⟩ := p
          rw [hann] at h
          dsimp only at h
          have hst : st'' = st' := by
            rcases cur with _ | c
            · dsimp only at h
              injection h with h
              exact congrArg Prod.snd h
            · dsimp only at h
              injection h with h
              exact congrArg Prod.snd h
          subst hst
          obtain ⟨hr, hc, hrs, hcs, hcur, htab, hoff, hrows, hcols, hupd, _⟩ :=
            AnnotationState.annotate_ok hann
          refine ⟨hr, hc, hrs, hcs, ?_, a, rfl, ?_, ?_⟩
          · intro hkbu
            subst hkbu
            refine ⟨a, rfl, ?_⟩
            by_contra hin
            exact hknow ⟨rfl, hin⟩
          · rw [hupd a rfl, annotGet_append, annotGet_erase_self]
            simp [annotGet]
          · intro cell hcell
            rw [hupd a rfl, annotGet_append, annotGet_erase_ne _ hcell]
            cases hg : annotGet st.annotations cell with
            | some v => simp
            | none =>
                simp only [annotGet]
                rw [if_neg (fun e => hcell e.symm)]

/-- C7: a CEA `annotate` call that succeeds satisfies the row/column
bounds of the (trimmed) table, the allowed-rows/columns filters when
present, and — when know-before-use is active, which `generate` forces
for CEA — the prepared entity identifier is in the known set; the
succeeding call replaces exactly the annotation of that cell; a call
violating bounds or filters fails with an error (the `Except.error`
case, leaving the state unchanged as `cea_annotate` returns no state
then). -/
theorem c7_cea_annotate_guards :
    (∀ (fm : String → Except String Unit)
       (prep : String → String → Except String Annot)
       (kg : String) (row column : Int) (entity : String)
       (st : AnnotationState) (known : List String) (kbu : Bool)
       (msg : String) (st' : AnnotationState),
      cea_annotate fm prep kg row column entity st known kbu = .ok (msg, st') →
        (0 ≤ row ∧ row < (st.table.height : Int)) ∧
        (0 ≤ column ∧ column < (st.table.width : Int)) ∧
        (∀ rs, st.rows = some rs → row ∈ rs) ∧
        (∀ cs, st.cols = some cs → column ∈ cs) ∧
        (kbu = true → ∃ a, prep kg entity = .ok a ∧
          known.contains a.identifier = true) ∧
        (∃ a, prep kg entity = .ok a ∧
          annotGet st'.annotations (row, column) = some a ∧
          ∀ cell, cell ≠ (row, column) →
            annotGet st'.annotations cell = annotGet st.annotations cell))
    ∧ (∀ (fm : String → Except String Unit)
         (prep : String → String → Except String Annot)
         (kg : String) (row column : Int) (entity : String)
         (st : AnnotationState) (known : List String) (kbu : Bool),
        (row < 0 ∨ (st.table.height : Int) ≤ row ∨
         column < 0 ∨ (st.table.width : Int) ≤ column ∨
         (∃ rs, st.rows = some rs ∧ row ∉ rs) ∨
         (∃ cs, st.cols = some cs ∧ column ∉ cs)) →
        ∃ e, cea_annotate fm prep kg row column entity st known kbu = .error e)
    ∧ (∀ cfg : GenConfig, (generate_task_config "cea" cfg).know_before_use = true) := by
  refine ⟨?_, ?_, ?_⟩
  · intro fm prep kg row column entity st known kbu msg st' h
    exact cea_annotate_ok_inv h
  · intro fm prep kg row column entity st known kbu hviol
    rcases hres : cea_annotate fm prep kg row column entity st known kbu with e | p
    · exact ⟨e, rfl⟩
    · obtain ⟨msg, st'⟩ := p
      obtain ⟨hr, hc, hrs, hcs, _, _⟩ := cea_annotate_ok_inv hres
      exfalso
      rcases hviol with hv | hv | hv | hv | ⟨rs, hrsv, hnin⟩ | ⟨cs, hcsv, hnin⟩
      · omega
      · omega
      · omega
      · omega
      · exact hnin (hrs rs hrsv)
      · exact hnin (hcs cs hcsv)
  · intro cfg
    rfl

/-- Witness for C7: a concrete in-bounds, allowed, known annotation is
accepted and lands in the map; the guard facts follow by the theorem. -/
theorem c7_cea_annotate_guards_witness :
    cea_annotate c7FindManager c7Prepare "wikidata" 0 1 "wd:Q1" c7State ["Q1"] true =
      .ok ("Annotated cell (0, 1) with entity wd:Q1",
        { table := c7State.table, offset := 0, rows := some [0], cols := none,
          annotations := [((0, 1), { identifier := "Q1", entity := "wd:Q1" })] }) ∧
    ((0 ≤ (0 : Int) ∧ (0 : Int) < (c7State.table.height : Int)) ∧
     (0 ≤ (1 : Int) ∧ (1 : Int) < (c7State.table.width : Int)) ∧
     (∀ rs, c7State.rows = some rs → (0 : Int) ∈ rs) ∧
     (∀ cs, c7State.cols = some cs → (1 : Int) ∈ cs) ∧
     (true = true → ∃ a, c7Prepare "wikidata" "wd:Q1" = .ok a ∧
        List.contains ["Q1"] a.identifier = true) ∧
     (∃ a, c7Prepare "wikidata" "wd:Q1" = .ok a ∧
        annotGet [((0, 1), { identifier := "Q1", entity := "wd:Q1" })] (0, 1) = some a ∧
        ∀ cell, cell ≠ ((0 : Int), (1 : Int)) →
          annotGet [((0, 1), { identifier := "Q1", entity := "wd:Q1" })] cell =
            annotGet c7State.annotations cell)) := by
  constructor
  · rfl
  · exact c7_cea_annotate_guards.1 c7FindManager c7Prepare "wikidata" 0 1 "wd:Q1"
      c7State ["Q1"] true _ _ rfl

/-- C3 (code bug): for every CEA request, `task_setup` raises `TypeError`
instead of normalizing the input, because `tasks/__init__.py` line 140
calls `cea_input_and_state(input)` without the required `config`
argument of `tasks/cea.py` line 423; no first user message and no
`AnnotationState` are ever produced, so the configured context-rows
trimming (embodied by `Table.trim` and `AnnotationState.init`) is
unreachable from `task_setup`. -/
theorem c3_cea_task_setup_type_error :
    ∀ (wdql_setup : String → Except String (String × TaskState))
      (explo_input : ExplorationState → String) (input : TaskInput),
      task_setup wdql_setup explo_input "cea" input =
        .error "TypeError: input_and_state() missing 1 required positional argument: config" := by
  intro wdql_setup explo_input input
  rfl

/-- C4 (code bug): the fenced `<tool_call>` block of the final assistant
message validates against the bare `answer`-argument schema, yet neither
`get_answer_from_message` nor `get_answer_or_cancel` adopts it — the
source's `try/finally: return None` overrides the parsed tool call — so
the extraction yields no output tool call at all. -/
theorem c4_bare_answer_object_not_adopted :
    validate_answer_args c4Json = some ("w", "q", "a") ∧
    get_answer_from_message c4Parse (some c4Msg) = none ∧
    get_cancel_from_message c4Parse (some c4Msg) = none ∧
    get_answer_or_cancel c4Parse c4Msgs = .ok (none, none) := by
  refine ⟨rfl, ?_, ?_, ?_⟩
  · rfl
  · rfl
  · rfl

/-- C1: when the model call at some iteration returns a non-empty
response whose content hash equals the stored hash of the previous turn,
the loop appends the assistant message and terminates at once with the
terminal error `loop`: no model-content event, no tool dispatch for that
response, exactly this one LLM call and no further ones; the terminal
`output` event then reports this error (`run_generate` emits `r.error`).
-/
theorem c1_loop_detection {σ ω : Type} (env : Env σ ω) (task : String)
    (cfg : GenConfig) (num fuel : Nat) (w w' : σ) (msgs : List Message)
    (retries : Nat) (r : Response)
    (hllm : env.llm w msgs = (w', .ok r))
    (hne : r.is_empty = false)
    (hsteps : msgs.length - num < cfg.max_steps) :
    runLoop env task cfg num (fuel + 1) w msgs (some r.hash) retries =
      ⟨w', msgs ++ [⟨"assistant", .resp r⟩], [],
        some ⟨"LLM appears to be stuck in a loop", "loop"⟩, 1, 0, [msgs], none⟩ := by
  unfold runLoop
  rw [if_neg (by omega)]
  unfold loopStep
  rw [hllm]
  simp only [hne, Bool.false_eq_true, if_false]
  simp

/-- Witness for C1: a concrete state whose stored hash equals the hash
of the response the model returns next; the loop exits with reason
`loop` after this single LLM call. -/
theorem c1_loop_detection_witness :
    c1Env.llm () c1Msgs = ((), .ok c1Resp) ∧
    c1Resp.is_empty = false ∧
    c1Msgs.length - 2 < c1Cfg.max_steps ∧
    runLoop c1Env "sparql-qa" c1Cfg 2 1 () c1Msgs (some c1Resp.hash) 0 =
      ⟨(), c1Msgs ++ [⟨"assistant", .resp c1Resp⟩], [],
        some ⟨"LLM appears to be stuck in a loop", "loop"⟩, 1, 0, [c1Msgs], none⟩ :=
  ⟨rfl, rfl, by decide,
    c1_loop_detection c1Env "sparql-qa" c1Cfg 2 0 () () c1Msgs 0 c1Resp rfl rfl (by decide)⟩

theorem loopStep_exit_error_reason {σ ω : Type} {env : Env σ ω} {task : String}
    {cfg : GenConfig} {w : σ} {msgs : List Message} {lh : Option String} {rt : Nat}
    {w' : σ} {msgs' : List Message} {ev : List (Event ω)} {e : ErrorInfo} {fb : Nat}
    (h : loopStep env task cfg w msgs lh rt = .exit w' msgs' ev (some e) fb) :
    e.reason = "timeout" ∨ e.reason = "api" ∨ e.reason = "empty" ∨
      e.reason = "loop" ∨ e.reason = "feedback" := by
  unfold loopStep at h
  rcases hres : env.llm w msgs with ⟨w₁, tr⟩
  rw [hres] at h
  cases tr <;> dsimp only at h
  case timeout =>
    injection h with h1 h2 h3 h4 h5
    injection h4 with h4
    rw [← h4]
    simp
  case failure s =>
    injection h with h1 h2 h3 h4 h5
    injection h4 with h4
    rw [← h4]
    simp
  case ok r =>
    repeat' split at h
    all_goals
      first
      | (injection h with h1 h2 h3 h4 h5
         first
         | (injection h4 with h4; subst h4; simp)
         | injection h4)
      | (exfalso; exact StepRes.noConfusion h)

theorem runLoop_error_reason {σ ω : Type} (env : Env σ ω) (task : String)
    (cfg : GenConfig) (num : Nat) :
    ∀ (fuel : Nat) (w : σ) (msgs : List Message) (lh : Option String) (rt : Nat)
      (e : ErrorInfo),
      (runLoop env task cfg num fuel w msgs lh rt).error = some e →
      e.reason = "timeout" ∨ e.reason = "api" ∨ e.reason = "empty" ∨
        e.reason = "loop" ∨ e.reason = "feedback" := by
  intro fuel
  induction fuel with
  | zero =>
      intro w msgs lh rt e h
      simp [runLoop] at h
  | succ n ih =>
      intro w msgs lh rt e h
      unfold runLoop at h
      split at h
      · simp at h
      · rcases hstep : loopStep env task cfg w msgs lh rt with
          ⟨w', msgs', ev, err, fb⟩ | ⟨w', msgs', ev, er, fb⟩ | ⟨w', msgs', ev, lh', rt', fb⟩
        · rw [hstep] at h
          dsimp only at h
          subst h
          exact loopStep_exit_error_reason hstep
        · rw [hstep] at h
          simp at h
        · rw [hstep] at h
          dsimp only at h
          exact ih w' msgs' lh' rt' e h

/-- C2 counterexample: with `max_steps = 1` and a model that keeps
calling `search_entities`, the loop performs one step, the budget is
exhausted, and the terminal `output` event reports `error = null` — not
a `step_limit` error as the claim states. -/
theorem c2_step_limit_counterexample :
    c2Run.messages.length - c2Msgs.length = c2Cfg.max_steps ∧
    c2Run.error = none ∧
    c2Run.events = [Event.model none (some "searching"),
      Event.tool "search_entities" [] (some "found entities"),
      Event.output "sparql-qa" none none c2FinalMsgs] ∧
    c2Run.messages = c2FinalMsgs :=
  ⟨rfl, rfl, rfl, rfl⟩

/-- C2 amended: when the step count reaches `max_steps` the loop exits
immediately, leaving the `error` dict unset, so the terminal `output`
event reports `error = null`; no `step_limit` reason exists — a terminal
error reason is always one of timeout, api, empty, loop, feedback. -/
theorem c2_amended_step_exhaustion_no_error :
    (∀ (σ ω : Type) (env : Env σ ω) (task : String) (cfg : GenConfig)
       (num fuel : Nat) (w : σ) (msgs : List Message) (lh : Option String)
       (rt : Nat),
      cfg.max_steps ≤ msgs.length - num →
      runLoop env task cfg num fuel w msgs lh rt = ⟨w, msgs, [], none, 0, 0, [], none⟩)
    ∧ (∀ (σ ω : Type) (env : Env σ ω) (task : String) (cfg : GenConfig)
         (num fuel : Nat) (w : σ) (msgs : List Message) (lh : Option String)
         (rt : Nat) (e : ErrorInfo),
        (runLoop env task cfg num fuel w msgs lh rt).error = some e →
        e.reason = "timeout" ∨ e.reason = "api" ∨ e.reason = "empty" ∨
          e.reason = "loop" ∨ e.reason = "feedback") := by
  constructor
  · intro σ ω env task cfg num fuel w msgs lh rt hsteps
    cases fuel with
    | zero => rfl
    | succ n =>
        unfold runLoop
        rw [if_pos hsteps]
  · intro σ ω env task cfg num fuel w msgs lh rt e h
    exact runLoop_error_reason env task cfg num fuel w msgs lh rt e h

/-- Witness for C2 amended: a zero-budget run exits untouched, and a
run that fails carries one of the five error reasons (here `timeout`). -/
theorem c2_amended_witness :
    (({ max_steps := 0 } : GenConfig).max_steps ≤ c1Msgs.length - 0 ∧
      runLoop c1Env "sparql-qa" { max_steps := 0 } 0 3 () c1Msgs none 0 =
        ⟨(), c1Msgs, [], none, 0, 0, [], none⟩) ∧
    ((runLoop cTimeoutEnv "sparql-qa" c1Cfg 2 1 () c1Msgs none 0).error =
        some ⟨"LLM API timed out", "timeout"⟩ ∧
      ((⟨"LLM API timed out", "timeout"⟩ : ErrorInfo).reason = "timeout" ∨
       (⟨"LLM API timed out", "timeout"⟩ : ErrorInfo).reason = "api" ∨
       (⟨"LLM API timed out", "timeout"⟩ : ErrorInfo).reason = "empty" ∨
       (⟨"LLM API timed out", "timeout"⟩ : ErrorInfo).reason = "loop" ∨
       (⟨"LLM API timed out", "timeout"⟩ : ErrorInfo).reason = "feedback")) :=
  ⟨⟨by decide, c2_amended_step_exhaustion_no_error.1 Unit String c1Env "sparql-qa"
      { max_steps := 0 } 0 3 () c1Msgs none 0 (by decide)⟩,
   ⟨rfl, c2_amended_step_exhaustion_no_error.2 Unit String cTimeoutEnv "sparql-qa"
      c1Cfg 2 1 () c1Msgs none 0 ⟨"LLM API timed out", "timeout"⟩ rfl⟩⟩

theorem validTask_task_done {task : String} (hv : validTask task) (fn : String) :
    ∃ b, task_done task fn = .ok b := by
  rcases hv with h | h | h | h | h <;> subst h <;> exact ⟨_, rfl⟩

theorem dispatch_tool_call_spec {σ ω : Type} (env : Env σ ω) (w : σ) (tc : ToolCall) :
    (dispatch_tool_call env w tc).2.1.name = tc.name ∧
    (dispatch_tool_call env w tc).2.1.args = tc.args ∧
    (dispatch_tool_call env w tc).2.1.result.isSome = true := by
  unfold dispatch_tool_call
  rcases env.call_function w tc with ⟨w', res⟩
  cases res <;> simp

theorem runToolCalls_ok {σ ω : Type} (env : Env σ ω) {task : String}
    (hv : validTask task) (w : σ) (tcs : List ToolCall) :
    ∃ w' calls evs stop, runToolCalls env task w tcs = .ok w' calls evs stop ∧
      List.Forall₂ (fun tc tc' => tc'.name = tc.name ∧ tc'.args = tc.args ∧
        tc'.result.isSome = true) tcs calls ∧
      evs.length = tcs.length := by
  induction tcs generalizing w with
  | nil => exact ⟨w, [], [], false, rfl, List.Forall₂.nil, rfl⟩
  | cons tc rest ih =>
      obtain ⟨b, hdone⟩ := validTask_task_done hv tc.name
      have hspec := dispatch_tool_call_spec env w tc
      rcases hd : dispatch_tool_call env w tc with ⟨w₁, tc', ev⟩
      rw [hd] at hspec
      obtain ⟨w', calls, evs, stop, hrest, hfa, hlen⟩ := ih w₁
      refine ⟨w', tc' :: calls, ev :: evs, b || stop, ?_, ?_, ?_⟩
      · unfold runToolCalls
        rw [hd]
        dsimp only
        rw [hdone]
        dsimp only
        rw [hrest]
      · exact List.Forall₂.cons hspec hfa
      · simpa using hlen

/-- C6: an exception in a dispatched tool is non-fatal.  (a) The
dispatcher converts it to the string
`Call to function <name> returned an error:\n<reason>`, stores it as the
tool call's result and emits it as the tool event's result; (b) the loop
still processes every remaining tool call of the turn, in order, with
results filled; (c) for the five defined tasks no exception escapes the
tool loop, and a terminal loop error can only carry one of the reasons
timeout/api/empty/loop/feedback — never a tool failure. -/
theorem c6_tool_errors_nonfatal :
    (∀ (σ ω : Type) (env : Env σ ω) (w w' : σ) (tc : ToolCall) (e : String),
      env.call_function w tc = (w', .error e) →
      dispatch_tool_call env w tc =
        (w', { tc with result := some ("Call to function " ++ tc.name ++
                 " returned an error:\n" ++ e) },
          .tool tc.name tc.args (some ("Call to function " ++ tc.name ++
            " returned an error:\n" ++ e))))
    ∧ (∀ (σ ω : Type) (env : Env σ ω) (task : String), validTask task →
        ∀ (w : σ) (tcs : List ToolCall),
        ∃ w' calls evs stop, runToolCalls env task w tcs = .ok w' calls evs stop ∧
          List.Forall₂ (fun tc tc' => tc'.name = tc.name ∧ tc'.args = tc.args ∧
            tc'.result.isSome = true) tcs calls ∧
          evs.length = tcs.length)
    ∧ (∀ (σ ω : Type) (env : Env σ ω) (task : String) (cfg : GenConfig)
         (num fuel : Nat) (w : σ) (msgs : List Message) (lh : Option String)
         (rt : Nat) (e : ErrorInfo),
        (runLoop env task cfg num fuel w msgs lh rt).error = some e →
        e.reason = "timeout" ∨ e.reason = "api" ∨ e.reason = "empty" ∨
          e.reason = "loop" ∨ e.reason = "feedback") := by
  refine ⟨?_, ?_, ?_⟩
  · intro σ ω env w w' tc e h
    unfold dispatch_tool_call
    rw [h]
  · intro σ ω env task hv w tcs
    exact runToolCalls_ok env hv w tcs
  · intro σ ω env task cfg num fuel w msgs lh rt e h
    exact runLoop_error_reason env task cfg num fuel w msgs lh rt e h

/-- Witness for C6: a concrete failing dispatcher call is converted to
the model-visible error string and the turn completes. -/
theorem c6_tool_errors_nonfatal_witness :
    c6Env.call_function () c6Tc = ((), .error "boom") ∧
    dispatch_tool_call c6Env () c6Tc =
      ((), { c6Tc with result := some "Call to function execute returned an error:\nboom" },
        .tool "execute" [] (some "Call to function execute returned an error:\nboom")) ∧
    validTask "cea" :=
  ⟨rfl,
   c6_tool_errors_nonfatal.1 Unit String c6Env () () c6Tc "boom" rfl,
   by decide⟩

/-- C5 counterexample: a general-qa run with feedback enabled, a
plain-text answer (natural stop) and a non-null `general_qa_output`
terminates WITH the terminal error reason `feedback` (the prompt builder
raises `ValueError` for general-qa), not silently as the claim states;
the feedback LLM itself is never called. -/
theorem c5_feedback_counterexample :
    c5Run.error = some ⟨"Failed to generate feedback:\nSystem message not implemented for task: general-qa",
      "feedback"⟩ ∧
    c5Run.fb_calls = 0 ∧
    c5Run.llm_calls = 1 :=
  ⟨rfl, rfl, rfl⟩

theorem loopStep_fb_feedback_false {σ ω : Type} (env : Env σ ω) (task : String)
    (cfg : GenConfig) (w : σ) (msgs : List Message) (lh : Option String)
    (rt : Nat) (hfb : cfg.feedback = false) :
    (loopStep env task cfg w msgs lh rt).fb = 0 := by
  suffices h : ∀ res, loopStep env task cfg w msgs lh rt = res → res.fb = 0 from
    h _ rfl
  intro res hstep
  unfold loopStep at hstep
  rcases hres : env.llm w msgs with ⟨w₁, tr⟩
  rw [hres] at hstep
  cases tr <;> dsimp only at hstep
  case timeout => subst hstep; rfl
  case failure e => subst hstep; rfl
  case ok r =>
    repeat' split at hstep
    all_goals subst hstep
    all_goals first
      | rfl
      | simp_all [StepRes.fb]

theorem loopStep_fb_retries {σ ω : Type} (env : Env σ ω) (task : String)
    (cfg : GenConfig) (w : σ) (msgs : List Message) (lh : Option String)
    (rt : Nat) (hrt : ¬ rt < cfg.max_feedbacks) :
    (loopStep env task cfg w msgs lh rt).fb = 0 := by
  suffices h : ∀ res, loopStep env task cfg w msgs lh rt = res → res.fb = 0 from
    h _ rfl
  intro res hstep
  unfold loopStep at hstep
  rcases hres : env.llm w msgs with ⟨w₁, tr⟩
  rw [hres] at hstep
  cases tr <;> dsimp only at hstep
  case timeout => subst hstep; rfl
  case failure e => subst hstep; rfl
  case ok r =>
    repeat' split at hstep
    all_goals subst hstep
    all_goals first
      | rfl
      | simp_all [StepRes.fb]

theorem loopStep_fb_task {σ ω : Type} (env : Env σ ω) (task : String)
    (cfg : GenConfig) (w : σ) (msgs : List Message) (lh : Option String)
    (rt : Nat) (ht : ¬ (task = "sparql-qa" ∨ task = "cea")) :
    (loopStep env task cfg w msgs lh rt).fb = 0 := by
  suffices h : ∀ res, loopStep env task cfg w msgs lh rt = res → res.fb = 0 from
    h _ rfl
  intro res hstep
  unfold loopStep at hstep
  rcases hres : env.llm w msgs with ⟨w₁, tr⟩
  rw [hres] at hstep
  cases tr <;> dsimp only at hstep
  case timeout => subst hstep; rfl
  case failure e => subst hstep; rfl
  case ok r =>
    repeat' split at hstep
    all_goals subst hstep
    all_goals first
      | rfl
      | simp_all [StepRes.fb, generate_feedback_run]

theorem runLoop_fb_calls_zero {σ ω : Type} (env : Env σ ω) (task : String)
    (cfg : GenConfig) (num : Nat)
    (hstep0 : ∀ w msgs lh rt, (loopStep env task cfg w msgs lh rt).fb = 0) :
    ∀ (fuel : Nat) (w : σ) (msgs : List Message) (lh : Option String) (rt : Nat),
      (runLoop env task cfg num fuel w msgs lh rt).fb_calls = 0 := by
  intro fuel
  induction fuel with
  | zero => intro w msgs lh rt; rfl
  | succ n ih =>
      intro w msgs lh rt
      unfold runLoop
      split
      · rfl
      · rcases hs : loopStep env task cfg w msgs lh rt with
          ⟨w', m', ev, err, fb⟩ | ⟨w', m', ev, er, fb⟩ | ⟨w', m', ev, l', r', fb⟩ <;>
          dsimp only
        · have h0 := hstep0 w msgs lh rt
          rw [hs] at h0
          exact h0
        · have h0 := hstep0 w msgs lh rt
          rw [hs] at h0
          exact h0
        · have h0 := hstep0 w msgs lh rt
          rw [hs] at h0
          dsimp [StepRes.fb] at h0
          rw [ih w' m' l' r', h0]

theorem runLoop_fb_gating {σ ω : Type} (env : Env σ ω) (task : String)
    (cfg : GenConfig) (num : Nat) (fuel : Nat) (w : σ) (msgs : List Message)
    (lh : Option String) (rt : Nat)
    (h : 0 < (runLoop env task cfg num fuel w msgs lh rt).fb_calls) :
    cfg.feedback = true ∧ (task = "sparql-qa" ∨ task = "cea") := by
  constructor
  · by_contra hfb
    have hfb' : cfg.feedback = false := by
      cases hb : cfg.feedback
      · rfl
      · exact absurd hb hfb
    rw [runLoop_fb_calls_zero env task cfg num
      (fun w m l r => loopStep_fb_feedback_false env task cfg w m l r hfb')
      fuel w msgs lh rt] at h
    omega
  · by_contra ht
    rw [runLoop_fb_calls_zero env task cfg num
      (fun w m l r => loopStep_fb_task env task cfg w m l r ht)
      fuel w msgs lh rt] at h
    omega

/-- C5 amended: the feedback LLM is called only when `config.feedback`
is true, retries are below `config.max_feedbacks`, the loop is stopping,
the task output is non-null AND the task is sparql-qa or cea (the tasks
with a feedback prompt); across a whole run, feedback calls imply
`config.feedback` and a supported task.  When the other activation
conditions hold but the task supplies no feedback prompt (general-qa,
wikidata-query-logs, exploration), the loop does NOT terminate silently:
the prompt builder raises and the iteration exits with the terminal
error reason `feedback`, the feedback LLM never being called. -/
theorem c5_feedback_activation :
    (∀ (σ ω : Type) (env : Env σ ω) (task : String) (cfg : GenConfig)
       (w w' : σ) (msgs : List Message) (lh : Option String) (rt : Nat)
       (r : Response) (out : ω),
      cfg.feedback = true → rt < cfg.max_feedbacks →
      env.llm w msgs = (w', .ok r) → r.is_empty = false →
      lh ≠ some r.hash → r.tool_calls = [] →
      env.task_output w' (msgs ++ [⟨"assistant", .resp r⟩]) = some out →
      ¬ (task = "sparql-qa" ∨ task = "cea") →
      loopStep env task cfg w msgs lh rt =
        .exit w' (msgs ++ [⟨"assistant", .resp r⟩])
          (if r.has_content = true then [.model r.content_reasoning r.message] else [])
          (some ⟨"Failed to generate feedback:\n" ++
            ("System message not implemented for task: " ++ task), "feedback"⟩) 0)
    ∧ (∀ (σ ω : Type) (env : Env σ ω) (task : String) (cfg : GenConfig)
         (num fuel : Nat) (w : σ) (msgs : List Message) (lh : Option String)
         (rt : Nat),
        0 < (runLoop env task cfg num fuel w msgs lh rt).fb_calls →
        cfg.feedback = true ∧ (task = "sparql-qa" ∨ task = "cea")) := by
  constructor
  · intro σ ω env task cfg w w' msgs lh rt r out hfb hrt hllm hne hhash hempty hout htask
    obtain ⟨rid, rmsg, rreas, rtcs, rusage⟩ := r
    dsimp only at hempty
    subst hempty
    unfold loopStep
    rw [hllm]
    dsimp only
    simp only [hne, Bool.false_eq_true, if_false]
    rw [if_neg hhash]
    dsimp only [runToolCalls]
    simp only [List.isEmpty_nil, Bool.true_or, hfb, Bool.true_and, decide_eq_true_eq]
    rw [if_neg (by simp [hrt]), if_neg (by simp)]
    rw [hout]
    dsimp only
    unfold generate_feedback_run
    rw [if_neg htask]
    simp
  · intro σ ω env task cfg num fuel w msgs lh rt h
    exact runLoop_fb_gating env task cfg num fuel w msgs lh rt h

/-- Witness for C5 amended: the general-qa feedback attempt of the
counterexample environment exits with the `feedback` error without
calling the feedback LLM. -/
theorem c5_feedback_activation_witness :
    c5Cfg.feedback = true ∧ (0 : Nat) < c5Cfg.max_feedbacks ∧
    c5Env.llm () [⟨"system", .text "sys"⟩, ⟨"user", .text "question"⟩] = ((), .ok c5Resp) ∧
    c5Resp.is_empty = false ∧ c5Resp.tool_calls = [] ∧
    c5Env.task_output ()
      ([⟨"system", .text "sys"⟩, ⟨"user", .text "question"⟩] ++
        [⟨"assistant", .resp c5Resp⟩]) = some "The answer is 42." ∧
    loopStep c5Env "general-qa" c5Cfg ()
        [⟨"system", .text "sys"⟩, ⟨"user", .text "question"⟩] none 0 =
      .exit () ([⟨"system", .text "sys"⟩, ⟨"user", .text "question"⟩] ++
          [⟨"assistant", .resp c5Resp⟩])
        (if c5Resp.has_content = true then
          [.model c5Resp.content_reasoning c5Resp.message] else [])
        (some ⟨"Failed to generate feedback:\n" ++
          ("System message not implemented for task: " ++ "general-qa"), "feedback"⟩) 0 :=
  ⟨rfl, by decide, rfl, rfl, rfl, rfl,
    c5_feedback_activation.1 Unit String c5Env "general-qa" c5Cfg () ()
      [⟨"system", .text "sys"⟩, ⟨"user", .text "question"⟩] none 0 c5Resp
      "The answer is 42." rfl (by decide) rfl rfl (by simp) rfl rfl (by decide)⟩

theorem runToolCalls_results {σ ω : Type} {env : Env σ ω} {task : String}
    {w : σ} {tcs : List ToolCall} {w' : σ} {calls : List ToolCall}
    {evs : List (Event ω)} {stop : Bool}
    (h : runToolCalls env task w tcs = .ok w' calls evs stop) :
    ∀ tc ∈ calls, tc.result ≠ none := by
  induction tcs generalizing w w' calls evs stop with
  | nil =>
      unfold runToolCalls at h
      injection h with h1 h2 h3 h4
      subst h2
      intro tc htc
      simp at htc
  | cons tc rest ih =>
      unfold runToolCalls at h
      have hspec := dispatch_tool_call_spec env w tc
      rcases hd : dispatch_tool_call env w tc with ⟨w₁, tc', ev⟩
      rw [hd] at h hspec
      dsimp only at h
      rcases htd : task_done task tc.name with e | b
      · rw [htd] at h
        exact absurd h (by simp)
      · rw [htd] at h
        dsimp only at h
        rcases hrec : runToolCalls env task w₁ rest with
          ⟨w₂, calls₀, evs₀, stop₀⟩ | ⟨w₂, calls₀, evs₀, e₀⟩
        · rw [hrec] at h
          injection h with h1 h2 h3 h4
          subst h2
          intro u hu
          rcases List.mem_cons.mp hu with hu | hu
          · subst hu
            intro hnone
            rw [hnone] at hspec
            simp at hspec
          · exact ih hrec u hu
        · rw [hrec] at h
          exact absurd h (by simp)

theorem resultsFilled_append {l₁ l₂ : List Message} :
    resultsFilled (l₁ ++ l₂) ↔ resultsFilled l₁ ∧ resultsFilled l₂ := by
  simp [resultsFilled, List.mem_append, or_imp, forall_and]

theorem loopStep_next_filled {σ ω : Type} {env : Env σ ω} {task : String}
    {cfg : GenConfig} {w : σ} {msgs : List Message} {lh : Option String}
    {rt : Nat} {w' : σ} {msgs' : List Message} {ev : List (Event ω)}
    {lh' : Option String} {rt' : Nat} {fb : Nat}
    (hf : resultsFilled msgs)
    (h : loopStep env task cfg w msgs lh rt = .next w' msgs' ev lh' rt' fb) :
    resultsFilled msgs' := by
  unfold loopStep at h
  rcases hres : env.llm w msgs with ⟨w₁, tr⟩
  rw [hres] at h
  cases tr <;> dsimp only at h
  case timeout => exact StepRes.noConfusion h
  case failure e => exact StepRes.noConfusion h
  case ok r =>
    split at h
    · exact StepRes.noConfusion h
    · split at h
      · exact StepRes.noConfusion h
      · split at h
        · exact StepRes.noConfusion h
        · rename_i w₂ calls evs stop heq
          split at h
          · exact StepRes.noConfusion h
          · split at h
            · injection h with h1 h2 h3 h4 h5 h6
              subst h2
              refine resultsFilled_append.mpr ⟨hf, ?_⟩
              intro m hm tc htc
              simp only [List.mem_singleton] at hm
              subst hm
              simp only [Message.toolCalls] at htc
              exact runToolCalls_results heq tc htc
            · split at h
              · exact StepRes.noConfusion h
              · rename_i out hout
                split at h
                · exact StepRes.noConfusion h
                · exact StepRes.noConfusion h
                · rename_i w₃ args fb2 heq2
                  split at h
                  · split at h
                    · exact StepRes.noConfusion h
                    · injection h with h1 h2 h3 h4 h5 h6
                      subst h2
                      refine resultsFilled_append.mpr ⟨resultsFilled_append.mpr ⟨hf, ?_⟩, ?_⟩
                      · intro m hm tc htc
                        simp only [List.mem_singleton] at hm
                        subst hm
                        simp only [Message.toolCalls] at htc
                        exact runToolCalls_results heq tc htc
                      · intro m hm tc htc
                        simp only [List.mem_singleton] at hm
                        subst hm
                        simp [Message.toolCalls] at htc
                  · exact StepRes.noConfusion h

theorem runLoop_calls_filled {σ ω : Type} (env : Env σ ω) (task : String)
    (cfg : GenConfig) (num : Nat) :
    ∀ (fuel : Nat) (w : σ) (msgs : List Message) (lh : Option String) (rt : Nat),
      resultsFilled msgs →
      ∀ c ∈ (runLoop env task cfg num fuel w msgs lh rt).calls, resultsFilled c := by
  intro fuel
  induction fuel with
  | zero =>
      intro w msgs lh rt hf c hc
      simp [runLoop] at hc
  | succ n ih =>
      intro w msgs lh rt hf c hc
      unfold runLoop at hc
      split at hc
      · simp at hc
      · rcases hs : loopStep env task cfg w msgs lh rt with
          ⟨w', m', e', err, fb⟩ | ⟨w', m', e', er, fb⟩ | ⟨w', m', e', l', r', fb⟩ <;>
          rw [hs] at hc <;> dsimp only at hc
        · simp only [List.mem_singleton] at hc
          subst hc
          exact hf
        · simp only [List.mem_singleton] at hc
          subst hc
          exact hf
        · rcases List.mem_cons.mp hc with hc | hc
          · subst hc
            exact hf
          · exact ih w' m' l' r' (loopStep_next_filled hf hs) c hc

theorem completionsToolCalls_filled_ok {tcs : List ToolCall}
    (hf : ∀ tc ∈ tcs, tc.result ≠ none) :
    ∃ out, completionsToolCalls tcs = .ok out := by
  induction tcs with
  | nil => exact ⟨([], []), rfl⟩
  | cons tc rest ih =>
      obtain ⟨out, hout⟩ := ih fun u hu => hf u (List.mem_cons_of_mem _ hu)
      rcases hres : tc.result with _ | res
      · exact absurd hres (hf tc (List.mem_cons_self _ _))
      · obtain ⟨cs, rs⟩ := out
        simp only [completionsToolCalls, hres, hout]
        exact ⟨_, rfl⟩

theorem completionsToolCalls_ok_filled {tcs : List ToolCall} {out}
    (h : completionsToolCalls tcs = .ok out) :
    ∀ tc ∈ tcs, tc.result ≠ none := by
  induction tcs generalizing out with
  | nil => intro tc htc; simp at htc
  | cons tc rest ih =>
      unfold completionsToolCalls at h
      rcases hres : tc.result with _ | res
      · rw [hres] at h
        exact absurd h (by simp)
      · rw [hres] at h
        rcases hrec : completionsToolCalls rest with e | out₀
        · rw [hrec] at h
          exact absurd h (by simp)
        · obtain ⟨cs, rs⟩ := out₀
          intro u hu
          rcases List.mem_cons.mp hu with hu | hu
          · subst hu
            simp [hres]
          · exact ih hrec u hu

theorem responsesToolCalls_filled_ok {tcs : List ToolCall}
    (hf : ∀ tc ∈ tcs, tc.result ≠ none) :
    ∃ out, responsesToolCalls tcs = .ok out := by
  induction tcs with
  | nil => exact ⟨[], rfl⟩
  | cons tc rest ih =>
      obtain ⟨out, hout⟩ := ih fun u hu => hf u (List.mem_cons_of_mem _ hu)
      rcases hres : tc.result with _ | res
      · exact absurd hres (hf tc (List.mem_cons_self _ _))
      · simp only [responsesToolCalls, hres, hout]
        exact ⟨_, rfl⟩

theorem responsesToolCalls_ok_filled {tcs : List ToolCall} {out}
    (h : responsesToolCalls tcs = .ok out) :
    ∀ tc ∈ tcs, tc.result ≠ none := by
  induction tcs generalizing out with
  | nil => intro tc htc; simp at htc
  | cons tc rest ih =>
      unfold responsesToolCalls at h
      rcases hres : tc.result with _ | res
      · rw [hres] at h
        exact absurd h (by simp)
      · rw [hres] at h
        rcases hrec : responsesToolCalls rest with e | out₀
        · rw [hrec] at h
          exact absurd h (by simp)
        · intro u hu
          rcases List.mem_cons.mp hu with hu | hu
          · subst hu
            simp [hres]
          · exact ih hrec u hu

theorem completions_api_messages_filled_ok {msgs : List Message}
    (hf : resultsFilled msgs) :
    ∃ out, completions_api_messages msgs = .ok out := by
  induction msgs with
  | nil => exact ⟨[], rfl⟩
  | cons m rest ih =>
      obtain ⟨tail, htail⟩ := ih fun x hx => hf x (List.mem_cons_of_mem _ hx)
      cases hc : m.content with
      | text s =>
          simp only [completions_api_messages, hc, htail]
          exact ⟨_, rfl⟩
      | resp a =>
          have hcf : ∀ tc ∈ a.tool_calls, tc.result ≠ none := by
            intro tc htc
            apply hf m (List.mem_cons_self _ _)
            simpa [Message.toolCalls, hc] using htc
          obtain ⟨⟨cs, rs⟩, hcalls⟩ := completionsToolCalls_filled_ok hcf
          simp only [completions_api_messages, hc, hcalls, htail]
          exact ⟨_, rfl⟩

theorem responses_api_messages_filled_ok {msgs : List Message}
    (hf : resultsFilled msgs) :
    ∃ out, responses_api_messages msgs = .ok out := by
  induction msgs with
  | nil => exact ⟨[], rfl⟩
  | cons m rest ih =>
      obtain ⟨tail, htail⟩ := ih fun x hx => hf x (List.mem_cons_of_mem _ hx)
      cases hc : m.content with
      | text s =>
          simp only [responses_api_messages, hc, htail]
          exact ⟨_, rfl⟩
      | resp a =>
          have hcf : ∀ tc ∈ a.tool_calls, tc.result ≠ none := by
            intro tc htc
            apply hf m (List.mem_cons_self _ _)
            simpa [Message.toolCalls, hc] using htc
          obtain ⟨items, hcalls⟩ := responsesToolCalls_filled_ok hcf
          simp only [responses_api_messages, hc, hcalls, htail]
          exact ⟨_, rfl⟩

theorem completions_api_messages_ok_filled {msgs : List Message} {out}
    (h : completions_api_messages msgs = .ok out) : resultsFilled msgs := by
  induction msgs generalizing out with
  | nil => intro m hm tc htc; simp at hm
  | cons m rest ih =>
      unfold completions_api_messages at h
      cases hc : m.content with
      | text s =>
          rw [hc] at h
          dsimp only at h
          rcases hrec : completions_api_messages rest with e | tail
          · rw [hrec] at h
            exact absurd h (by simp)
          · rw [hrec] at h
            intro x hx tc htc
            rcases List.mem_cons.mp hx with hx | hx
            · subst hx
              simp [Message.toolCalls, hc] at htc
            · exact ih hrec x hx tc htc
      | resp a =>
          rw [hc] at h
          dsimp only at h
          rcases hcall : completionsToolCalls a.tool_calls with e | p
          · rw [hcall] at h
            exact absurd h (by simp)
          · obtain ⟨cs, rs⟩ := p
            rw [hcall] at h
            dsimp only at h
            rcases hrec : completions_api_messages rest with e | tail
            · rw [hrec] at h
              exact absurd h (by simp)
            · intro x hx tc htc
              rcases List.mem_cons.mp hx with hx | hx
              · subst hx
                apply completionsToolCalls_ok_filled hcall
                simpa [Message.toolCalls, hc] using htc
              · exact ih hrec x hx tc htc

theorem responses_api_messages_ok_filled {msgs : List Message} {out}
    (h : responses_api_messages msgs = .ok out) : resultsFilled msgs := by
  induction msgs generalizing out with
  | nil => intro m hm tc htc; simp at hm
  | cons m rest ih =>
      unfold responses_api_messages at h
      cases hc : m.content with
      | text s =>
          rw [hc] at h
          dsimp only at h
          rcases hrec : responses_api_messages rest with e | tail
          · rw [hrec] at h
            exact absurd h (by simp)
          · rw [hrec] at h
            intro x hx tc htc
            rcases List.mem_cons.mp hx with hx | hx
            · subst hx
              simp [Message.toolCalls, hc] at htc
            · exact ih hrec x hx tc htc
      | resp a =>
          rw [hc] at h
          dsimp only at h
          rcases hcall : responsesToolCalls a.tool_calls with e | items
          · rw [hcall] at h
            exact absurd h (by simp)
          · rw [hcall] at h
            dsimp only at h
            rcases hrec : responses_api_messages rest with e | tail
            · rw [hrec] at h
              exact absurd h (by simp)
            · intro x hx tc htc
              rcases List.mem_cons.mp hx with hx | hx
              · subst hx
                apply responsesToolCalls_ok_filled hcall
                simpa [Message.toolCalls, hc] using htc
              · exact ih hrec x hx tc htc

/-- C9 counterexample: the invariant does not extend to client-supplied
past messages adopted verbatim.  `assemble_messages` accepts a past
conversation whose assistant turn carries a tool call with a null
result; the assembled conversation violates `resultsFilled`, and both
wire serializers fail with the `Expected tool call result` assertion. -/
theorem c9_unfilled_past_counterexample :
    assemble_messages "fresh system" (some c9Past) "question" = .ok c9Conv ∧
    ¬ resultsFilled c9Conv ∧
    completions_api_messages c9Conv = .error "Expected tool call result" ∧
    responses_api_messages c9Conv = .error "Expected tool call result" :=
  ⟨rfl, by decide, rfl, rfl⟩

/-- C9 (amended): every conversation the agent loop itself sends to the
LLM — recorded in `.calls` — satisfies the non-null-result invariant
whenever the loop entered with a conversation satisfying it, and on such
conversations both wire serializers succeed; conversely a conversation
either serializer accepts satisfies the invariant.  The guarantee is
conditional on the entry conversation: client-supplied past messages are
adopted verbatim without validation, so an unfilled past tool call does
reach the serializers (see the counterexample). -/
theorem c9_amended_tool_result_invariant {σ ω : Type} (env : Env σ ω)
    (task : String) (cfg : GenConfig) (num fuel : Nat) (w : σ)
    (msgs : List Message) (lh : Option String) (rt : Nat)
    (hf : resultsFilled msgs) :
    (∀ c ∈ (runLoop env task cfg num fuel w msgs lh rt).calls,
        resultsFilled c ∧
        (∃ out, completions_api_messages c = .ok out) ∧
        (∃ out, responses_api_messages c = .ok out)) ∧
    (∀ (c : List Message) (out : List Json),
        completions_api_messages c = .ok out → resultsFilled c) ∧
    (∀ (c : List Message) (out : List Json),
        responses_api_messages c = .ok out → resultsFilled c) := by
  refine ⟨?_, fun c out h => completions_api_messages_ok_filled h,
          fun c out h => responses_api_messages_ok_filled h⟩
  intro c hc
  have hcf := runLoop_calls_filled env task cfg num fuel w msgs lh rt hf c hc
  exact ⟨hcf, completions_api_messages_filled_ok hcf,
         responses_api_messages_filled_ok hcf⟩

/-- Closed witness for the amended C9 theorem: a fresh system/user
conversation (trivially filled) run for one step. -/
theorem c9_amended_tool_result_invariant_witness :
    resultsFilled c2Msgs ∧
    (∀ c ∈ (runLoop cTimeoutEnv "sparql-qa" ({ max_steps := 1 } : GenConfig)
              c2Msgs.length 1 () c2Msgs none 0).calls,
        resultsFilled c ∧
        (∃ out, completions_api_messages c = .ok out) ∧
        (∃ out, responses_api_messages c = .ok out)) :=
  ⟨by decide,
   (c9_amended_tool_result_invariant cTimeoutEnv "sparql-qa"
      ({ max_steps := 1 } : GenConfig) c2Msgs.length 1 () c2Msgs none 0
      (by decide)).1⟩
